import Mathlib

/-!
Verification of the amortization / prepayment / investment engine of
`finance_logic.py` (repository tp2-adm-fin).

The Python code works with IEEE floats; this development is an exact-arithmetic
shallow embedding: every float quantity that the program derives by field
operations is represented in `ℚ`.  Two quantities of the program are genuinely
transcendental and are represented in `ℝ`:

* `npf.nper` (used only in the `Price`/positive-rate/shorten-term branch of
  `calcular_simulacao_extra`), which is `log (pmt / (pmt - r*balance)) / log (1+r)`;
* the monthly-equivalent compound rate `(1 + annual)^(1/12) - 1` used by
  `calcular_investimento`.

The schedule generators also compute a present-value column from the
monthly-equivalent inflation rate `(1+inflacao_anual)^(1/12) - 1` (line 30 of
the source), which is irrational for a positive annual inflation rate.  The
embedding therefore takes the *monthly* inflation rate (called `infM` below) as
the parameter of the schedule functions; the source's conversion itself is the
function `taxaMensalInv` below, and for a zero annual rate it yields exactly the
monthly rate `0` used throughout the claims.
-/

/-- `tipo_sistema`: the code compares the string with `'Price'` and treats any
other value as SAC, so the parameter is two-valued. -/
inductive Sistema where
  | Price : Sistema
  | SAC : Sistema
deriving DecidableEq, Repr

/-- `estrategia`: `'parcela'` (reduce-payment) versus any other string
(shorten-term, labelled `'prazo'` by the UI). -/
inductive Estrategia where
  | parcela : Estrategia
  | prazo : Estrategia
deriving DecidableEq, Repr

/-- `tipo_amort_extra`: `'unico'` (single prepayment) versus `'anual'`
(recurring every 12 months from the start month). -/
inductive TipoExtra where
  | unico : TipoExtra
  | anual : TipoExtra
deriving DecidableEq, Repr

/-- One row of a schedule `DataFrame`: the dict appended per month by
`calcular_cronograma_price` (lines 71-80), `calcular_cronograma_sac`
(lines 124-133) and `calcular_simulacao_extra` (lines 210-219) of
`finance_logic.py`.  Field names are the ASCII versions of the dict keys
"Mês", "Parcela", "Juros", "Amortização", "Seguro", "Taxa Adm",
"Saldo Devedor", "VP Parcela". -/
structure Row where
  mes : ℕ
  parcela : ℚ
  juros : ℚ
  amortizacao : ℚ
  seguro : ℚ
  taxaAdm : ℚ
  saldoDevedor : ℚ
  vpParcela : ℚ
deriving DecidableEq, Repr

/-- `numpy_financial.pmt rate nper pv` (external library; its closed form is
documented in spec §4.1): `-(pv*(1+rate)^nper) * rate / ((1+rate)^nper - 1)`.
When `(1+rate)^nper = 1` numpy divides by zero and produces a non-finite float
(NaN/inf) without raising; that poisoned outcome is modelled as `none`. -/
def npf_pmt (rate : ℚ) (nper : ℤ) (pv : ℚ) : Option ℚ :=
  if (1 + rate) ^ nper - 1 = 0 then none
  else some ((-(pv * (1 + rate) ^ nper) * rate) / ((1 + rate) ^ nper - 1))

/-- The base-payment computation shared by lines 34-37 and line 170 of the
source: `npf.pmt(taxa_mensal, prazo_meses, -principal)` when the monthly rate
is positive, else the straight-line `principal / prazo_meses`.  For a positive
rate and a positive term the `npf_pmt` option is always `some` (see
`npf_pmt_pos`), so the `getD 0` default is never exercised there. -/
def pmtPrice (r : ℚ) (n : ℕ) (principal : ℚ) : ℚ :=
  if 0 < r then (npf_pmt r (n : ℤ) (-principal)).getD 0 else principal / n

/-- Python's `int()` applied to a rational float value: truncation toward
zero. -/
def pyInt (q : ℚ) : ℤ :=
  if 0 ≤ q then ⌊q⌋ else -⌊-q⌋

/-- `numpy_financial.nper rate (-pmt) balance` as called on line 233 of the
source: the continuous number of periods needed to amortize `balance` by the
level payment `pmt`, `log (pmt / (pmt - rate*balance)) / log (1+rate)`
(spec §4.1).  Irrational in general, hence valued in `ℝ`. -/
noncomputable def nperR (rate pmt balance : ℚ) : ℝ :=
  Real.log ((pmt : ℝ) / ((pmt : ℝ) - (rate : ℝ) * (balance : ℝ))) /
    Real.log (1 + (rate : ℝ))

/-- Python's `int()` applied to a real value: truncation toward zero. -/
noncomputable def pyIntR (x : ℝ) : ℤ :=
  if 0 ≤ x then ⌊x⌋ else -⌊-x⌋

/-- The `for mes in range(1, prazo_meses+1)` loop of
`calcular_cronograma_price` (lines 43-80).  `k` counts the months still to be
produced, `mes` is the current 1-based month and `saldo` the running
`saldo_devedor`.  Residual correction (lines 61-64): on the final month, if
more than one cent remains it is folded into principal and payment and the
balance is forced to zero. -/
def priceLoop (r fee segM infM pmt : ℚ) (n : ℕ) : ℕ → ℕ → ℚ → List Row
  | 0, _, _ => []
  | k + 1, mes, saldo =>
    let juros := saldo * r
    let amort := if 0 < r then pmt - juros else pmt
    let seguroValor := saldo * segM
    let parcelaTotal := pmt + fee + seguroValor
    let saldoNext := saldo - amort
    let residual := mes = n ∧ 1 / 100 < saldoNext
    let amort2 := if residual then amort + saldoNext else amort
    let parcela2 := if residual then parcelaTotal + saldoNext else parcelaTotal
    let saldo2 := if residual then 0 else saldoNext
    let vp := parcela2 / (1 + infM) ^ mes
    ⟨mes, parcela2, juros, amort2, seguroValor, fee, saldo2, vp⟩ ::
      priceLoop r fee segM infM pmt n k (mes + 1) saldo2

/-- `calcular_cronograma_price` (lines 8-82): Price/French schedule.  `infM` is
the monthly-equivalent inflation rate (see the header comment). -/
def calcular_cronograma_price (principal taxa_anual : ℚ) (prazo_meses : ℕ)
    (taxa_adm_fixa seguro_perc_anual infM : ℚ) : List Row :=
  let taxaMensal := taxa_anual / 12
  let seguroMensal := seguro_perc_anual / 12
  let pmtBase := pmtPrice taxaMensal prazo_meses principal
  priceLoop taxaMensal taxa_adm_fixa seguroMensal infM pmtBase prazo_meses
    prazo_meses 1 principal

/-- The month loop of `calcular_cronograma_sac` (lines 108-133).  On the final
month the balance is forced to zero unconditionally (lines 119-120). -/
def sacLoop (r fee segM infM amortFixa : ℚ) (n : ℕ) : ℕ → ℕ → ℚ → List Row
  | 0, _, _ => []
  | k + 1, mes, saldo =>
    let juros := saldo * r
    let seguroValor := saldo * segM
    let parcelaTotal := amortFixa + juros + fee + seguroValor
    let saldoNext := saldo - amortFixa
    let saldo2 := if mes = n then 0 else saldoNext
    let vp := parcelaTotal / (1 + infM) ^ mes
    ⟨mes, parcelaTotal, juros, amortFixa, seguroValor, fee, saldo2, vp⟩ ::
      sacLoop r fee segM infM amortFixa n k (mes + 1) saldo2

/-- `calcular_cronograma_sac` (lines 84-135): constant-amortization schedule. -/
def calcular_cronograma_sac (principal taxa_anual : ℚ) (prazo_meses : ℕ)
    (taxa_adm_fixa seguro_perc_anual infM : ℚ) : List Row :=
  let taxaMensal := taxa_anual / 12
  let seguroMensal := seguro_perc_anual / 12
  let amortFixa := principal / prazo_meses
  sacLoop taxaMensal taxa_adm_fixa seguroMensal infM amortFixa prazo_meses
    prazo_meses 1 principal

/-- Static parameters of `calcular_simulacao_extra` after the rate
conversions of lines 160-162. -/
structure SimParams where
  tipo : Sistema
  estrategia : Estrategia
  tipoExtra : TipoExtra
  r : ℚ        -- taxa_mensal
  fee : ℚ      -- taxa_adm_fixa
  segM : ℚ     -- seguro_perc_mensal
  valorExtra : ℚ
  mesInicio : ℕ
  infM : ℚ

/-- Mutable loop state of `calcular_simulacao_extra`: `saldo_devedor`,
`mes_atual`, `prazo_total_simulado` and the current base parameter
(`parcela_base_juros_amort` for Price, `amortizacao_base` for SAC — the code
only ever defines the one matching `tipo_sistema`, so a single field holds
it). -/
structure SimState where
  saldo : ℚ
  mes : ℕ
  prazoTotal : ℤ
  base : ℚ

/-- Whether a prepayment fires this month (lines 177-182): `'unico'` fires
exactly at `mes_inicio_extra`; `'anual'` fires there and every 12 months
after. -/
abbrev extraFires (p : SimParams) (mes : ℕ) : Prop :=
  0 < p.valorExtra ∧
    ((p.tipoExtra = TipoExtra.unico ∧ mes = p.mesInicio) ∨
     (p.tipoExtra = TipoExtra.anual ∧ p.mesInicio ≤ mes ∧
       (mes - p.mesInicio) % 12 = 0))

/-- One iteration of the `while` body of `calcular_simulacao_extra`
(lines 176-238): computes this month's row and the next state.

* clamp (lines 192-196): if normal + extra would overpay, the recorded total
  becomes `saldo + juros` and the extra is reassigned to `saldo - normal`;
* residual correction (lines 203-206) on the month equal to the current
  simulated total term;
* re-amortization (lines 221-236) when a (possibly reassigned) extra was paid
  and more than one cent of balance remains: `parcela` re-derives the base for
  the remaining term, `prazo` keeps the base and sets
  `prazo_total_simulado = mes + int(novo_prazo_restante + 0.99)`. -/
noncomputable def simStep (p : SimParams) (s : SimState) : SimState × Row :=
  let extra0 : ℚ := if extraFires p s.mes then p.valorExtra else 0
  let juros := s.saldo * p.r
  let seguroValor := s.saldo * p.segM
  let normal := if p.tipo = Sistema.Price then s.base - juros else s.base
  let clamp := s.saldo < normal + extra0
  let total := if clamp then s.saldo + juros else normal + extra0
  let extra := if clamp then s.saldo - normal else extra0
  let parcelaTotal := total + juros + p.fee + seguroValor
  let saldoNext := s.saldo - (normal + extra)
  let residual := (s.mes : ℤ) = s.prazoTotal ∧ 1 / 100 < saldoNext
  let total2 := if residual then total + saldoNext else total
  let parcela2 := if residual then parcelaTotal + saldoNext else parcelaTotal
  let saldo2 := if residual then 0 else saldoNext
  let vp := parcela2 / (1 + p.infM) ^ s.mes
  let row : Row := ⟨s.mes, parcela2, juros, total2, seguroValor, p.fee, saldo2, vp⟩
  let s2 : SimState :=
    if 0 < extra ∧ 1 / 100 < saldo2 then
      let prazoRest : ℤ := s.prazoTotal - s.mes
      if p.estrategia = Estrategia.parcela then
        { saldo := saldo2, mes := s.mes + 1, prazoTotal := s.prazoTotal,
          base :=
            if p.tipo = Sistema.Price then
              (if 0 < p.r then (npf_pmt p.r prazoRest (-saldo2)).getD 0
               else saldo2 / prazoRest)
            else saldo2 / prazoRest }
      else
        let novoPrazoInt : ℤ :=
          if p.tipo = Sistema.Price then
            (if 0 < p.r then pyIntR (nperR p.r s.base saldo2 + 99 / 100)
             else pyInt (saldo2 / s.base + 99 / 100))
          else pyInt (saldo2 / s.base + 99 / 100)
        { saldo := saldo2, mes := s.mes + 1,
          prazoTotal := (s.mes : ℤ) + novoPrazoInt, base := s.base }
    else
      { saldo := saldo2, mes := s.mes + 1, prazoTotal := s.prazoTotal,
        base := s.base }
  (s2, row)

/-- The `while saldo_devedor > 0.01 and mes_atual <= prazo_total_simulado`
loop (line 174), driven by explicit fuel: the Python loop is not structurally
bounded (the shorten-term branch reassigns `prazo_total_simulado`), so the
embedding counts iterations; every theorem below supplies enough fuel, and in
every concrete run the loop is over (its guard false) before the fuel is. -/
noncomputable def simLoop (p : SimParams) : ℕ → SimState → List Row
  | 0, _ => []
  | fuel + 1, s =>
    if 1 / 100 < s.saldo ∧ (s.mes : ℤ) ≤ s.prazoTotal then
      let step := simStep p s
      step.2 :: simLoop p fuel step.1
    else []

/-- `calcular_simulacao_extra` (lines 137-240).  The initial base parameter
(lines 169-172) is the Price level payment or the SAC fixed amortization. -/
noncomputable def calcular_simulacao_extra (fuel : ℕ) (tipo : Sistema)
    (principal taxa_anual : ℚ) (prazo_meses : ℕ) (estrategia : Estrategia)
    (taxa_adm_fixa seguro_perc_anual : ℚ) (tipo_amort_extra : TipoExtra)
    (valor_extra : ℚ) (mes_inicio_extra : ℕ) (infM : ℚ) : List Row :=
  let taxaMensal := taxa_anual / 12
  let p : SimParams :=
    { tipo := tipo, estrategia := estrategia, tipoExtra := tipo_amort_extra,
      r := taxaMensal, fee := taxa_adm_fixa, segM := seguro_perc_anual / 12,
      valorExtra := valor_extra, mesInicio := mes_inicio_extra, infM := infM }
  let base :=
    if tipo = Sistema.Price then pmtPrice taxaMensal prazo_meses principal
    else principal / prazo_meses
  simLoop p fuel
    { saldo := principal, mes := 1, prazoTotal := (prazo_meses : ℤ), base := base }

/-- The monthly-equivalent compound conversion used by
`calcular_investimento` (lines 254-257) and, for the inflation rate, by the
schedule generators (line 30): `(1+annual)^(1/12) - 1` when the annual rate is
positive, else `0`. -/
noncomputable def taxaMensalInv (taxa_anual : ℝ) : ℝ :=
  if 0 < taxa_anual then (1 + taxa_anual) ^ ((1 : ℝ) / 12) - 1 else 0

/-- One row of the investment projection of `calcular_investimento`
(lines 266-270). -/
structure InvRow where
  mes : ℕ
  rendimento : ℝ
  valorAcumulado : ℝ

/-- The running `valor_acumulado` of `calcular_investimento` after `m`
months: each month adds `valor_acumulado * taxa_mensal` (lines 263-264). -/
noncomputable def invAcc (v i : ℝ) : ℕ → ℝ
  | 0 => v
  | m + 1 => invAcc v i m + invAcc v i m * i

/-- The `for mes in range(1, prazo_meses+1)` loop of `calcular_investimento`
(lines 262-270). -/
noncomputable def invLoop (i : ℝ) : ℕ → ℕ → ℝ → List InvRow
  | 0, _, _ => []
  | k + 1, mes, acc =>
    let rendimento := acc * i
    let acc2 := acc + rendimento
    ⟨mes, rendimento, acc2⟩ :: invLoop i k (mes + 1) acc2

/-- `calcular_investimento` (lines 242-273): returns
`(ganho_total, cronograma)`. -/
noncomputable def calcular_investimento (valor_inicial taxa_anual_liquida : ℝ)
    (prazo_meses : ℕ) : ℝ × List InvRow :=
  let i := taxaMensalInv taxa_anual_liquida
  (invAcc valor_inicial i prazo_meses - valor_inicial,
   invLoop i prazo_meses 1 valor_inicial)

/-- `encontrar_pagamento_meta` (lines 275-320).  The result is `Option ℚ`:
`some x` is a returned float `x`; `none` is the NaN that numpy's `pmt`
produces (and the function then returns) when `(1+r)^nper = 1` — numpy emits
no exception, so the `try/except` does not intercept it.  The `except` clause
*does* catch the `ZeroDivisionError` of Python's own `/` in the zero-rate and
SAC branches (term 0) and returns `0.0` (lines 315-318). -/
def encontrar_pagamento_meta (tipo : Sistema) (principal taxa_anual : ℚ)
    (prazo_original prazo_desejado : ℤ) : Option ℚ :=
  if prazo_original ≤ prazo_desejado then some 0
  else
    let taxaMensal := taxa_anual / 12
    match tipo with
    | Sistema.Price =>
      if 0 < taxaMensal then
        match npf_pmt taxaMensal prazo_original (-principal),
              npf_pmt taxaMensal prazo_desejado (-principal) with
        | some a, some b => some (b - a)
        | _, _ => none
      else
        if prazo_original = 0 ∨ prazo_desejado = 0 then some 0
        else some (principal / prazo_desejado - principal / prazo_original)
    | Sistema.SAC =>
      if prazo_original = 0 ∨ prazo_desejado = 0 then some 0
      else some (principal / prazo_desejado - principal / prazo_original)

/-- Abstract running balance of the Price recurrence: the code's
`saldo_devedor` after `m` months, before any residual correction (its monthly
update on lines 45-58 is `saldo ↦ saldo*(1+r) - pmt` for `r ≥ 0`). -/
def saldoPrice (P r pmt : ℚ) : ℕ → ℚ
  | 0 => P
  | m + 1 => saldoPrice P r pmt m * (1 + r) - pmt

/-- Abstract running balance of the SAC recurrence after `m` months. -/
def saldoSac (P : ℚ) (n : ℕ) (m : ℕ) : ℚ :=
  P - m * (P / n)

/-- Closed description of row `i` (0-based; month `i+1`) of a Price schedule
in which the residual correction does not fire. -/
def priceRowG (P r pmt fee segM infM : ℚ) (i : ℕ) : Row :=
  ⟨i + 1,
   pmt + fee + saldoPrice P r pmt i * segM,
   saldoPrice P r pmt i * r,
   saldoPrice P r pmt i - saldoPrice P r pmt (i + 1),
   saldoPrice P r pmt i * segM,
   fee,
   saldoPrice P r pmt (i + 1),
   (pmt + fee + saldoPrice P r pmt i * segM) / (1 + infM) ^ (i + 1)⟩

/-- Closed description of row `i` (0-based; month `i+1`) of a SAC schedule
with term `n`. -/
def sacRowG (P r fee segM infM : ℚ) (n : ℕ) (i : ℕ) : Row :=
  ⟨i + 1,
   P / n + saldoSac P n i * r + fee + saldoSac P n i * segM,
   saldoSac P n i * r,
   P / n,
   saldoSac P n i * segM,
   fee,
   if i + 1 = n then 0 else saldoSac P n i - P / n,
   (P / n + saldoSac P n i * r + fee + saldoSac P n i * segM) / (1 + infM) ^ (i + 1)⟩

/-- Sum of the "Amortização" column of a schedule. -/
def sumAmort (l : List Row) : ℚ :=
  (l.map Row.amortizacao).sum

/-! ### Annuity facts: the level payment amortizes exactly -/

lemma npf_pmt_pos (r : ℚ) (n : ℕ) (P : ℚ) (hr : 0 < r) (hn : 1 ≤ n) :
    npf_pmt r (n : ℤ) (-P) = some (P * r * (1 + r) ^ n / ((1 + r) ^ n - 1)) := by
  have h1 : (1 : ℚ) < (1 + r) ^ n := one_lt_pow₀ (by linarith) (by omega)
  rw [npf_pmt, zpow_natCast, if_neg (by linarith)]
  congr 1
  ring

lemma pmtPrice_pos (r : ℚ) (n : ℕ) (P : ℚ) (hr : 0 < r) (hn : 1 ≤ n) :
    pmtPrice r n P = P * r * (1 + r) ^ n / ((1 + r) ^ n - 1) := by
  rw [pmtPrice, if_pos hr, npf_pmt_pos r n P hr hn, Option.getD_some]

lemma pmtPrice_zero (n : ℕ) (P : ℚ) :
    pmtPrice 0 n P = P / n := by
  rw [pmtPrice, if_neg (lt_irrefl 0)]

lemma saldoPrice_mul (P r pmt : ℚ) :
    ∀ m, r * saldoPrice P r pmt m = (1 + r) ^ m * (P * r - pmt) + pmt := by
  intro m
  induction m with
  | zero => simp [saldoPrice]; ring
  | succ k ih =>
    rw [saldoPrice, mul_sub, mul_comm (saldoPrice P r pmt k) (1 + r),
      ← mul_assoc, mul_comm r (1 + r), mul_assoc, ih]
    ring

lemma saldoPrice_zero_rate (P pmt : ℚ) :
    ∀ m, saldoPrice P 0 pmt m = P - m * pmt := by
  intro m
  induction m with
  | zero => simp [saldoPrice]
  | succ k ih => rw [saldoPrice, ih]; push_cast; ring

lemma saldoPrice_closed (P r : ℚ) (n : ℕ) (hr : 0 < r) (hn : 1 ≤ n) :
    ∀ m, saldoPrice P r (pmtPrice r n P) m =
      P * ((1 + r) ^ n - (1 + r) ^ m) / ((1 + r) ^ n - 1) := by
  intro m
  have h1 : (1 : ℚ) < (1 + r) ^ n := one_lt_pow₀ (by linarith) (by omega)
  have h2 : (1 + r) ^ n - 1 ≠ 0 := by linarith
  have h3 := saldoPrice_mul P r (pmtPrice r n P) m
  have hr' : r ≠ 0 := ne_of_gt hr
  have hp : pmtPrice r n P * ((1 + r) ^ n - 1) = P * r * (1 + r) ^ n := by
    rw [pmtPrice_pos r n P hr hn]
    field_simp
  rw [eq_div_iff h2]
  refine mul_left_cancel₀ hr' ?_
  linear_combination ((1 + r) ^ n - 1) * h3 + (1 - (1 + r) ^ m) * hp

lemma saldoPrice_final (P r : ℚ) (n : ℕ) (hr : 0 ≤ r) (hn : 1 ≤ n) :
    saldoPrice P r (pmtPrice r n P) n = 0 := by
  rcases hr.eq_or_lt with h | h
  · subst h
    rw [saldoPrice_zero_rate, pmtPrice_zero]
    have hn' : (n : ℚ) ≠ 0 := Nat.cast_ne_zero.mpr (by omega)
    field_simp
  · rw [saldoPrice_closed P r n h hn n, sub_self, mul_zero, zero_div]

lemma saldoPrice_step (P r pmt : ℚ) (hr : 0 ≤ r) (m : ℕ) :
    (if 0 < r then pmt - saldoPrice P r pmt m * r else pmt) =
      saldoPrice P r pmt m - saldoPrice P r pmt (m + 1) := by
  rcases hr.eq_or_lt with h | h
  · rw [if_neg (by rw [← h]; exact lt_irrefl 0), saldoPrice, ← h]
    ring
  · rw [if_pos h, saldoPrice]
    ring

lemma saldoPrice_nonneg (P r : ℚ) (n m : ℕ) (hr : 0 ≤ r) (hP : 0 ≤ P)
    (hn : 1 ≤ n) (hm : m ≤ n) :
    0 ≤ saldoPrice P r (pmtPrice r n P) m := by
  rcases hr.eq_or_lt with h | h
  · subst h
    rw [saldoPrice_zero_rate, pmtPrice_zero]
    have hn' : (0 : ℚ) < (n : ℚ) := by exact_mod_cast Nat.lt_of_lt_of_le Nat.zero_lt_one hn
    have hmn : (m : ℚ) ≤ (n : ℚ) := by exact_mod_cast hm
    have : P - m * (P / n) = P * ((n : ℚ) - m) / n := by field_simp; ring
    rw [this]
    exact div_nonneg (mul_nonneg hP (by linarith)) (le_of_lt hn')
  · rw [saldoPrice_closed P r n h hn m]
    have h1 : (1 : ℚ) < (1 + r) ^ n := one_lt_pow₀ (by linarith) (by omega)
    have h2 : (1 + r) ^ m ≤ (1 + r) ^ n := pow_le_pow_right₀ (by linarith) hm
    have : 0 ≤ P * ((1 + r) ^ n - (1 + r) ^ m) := mul_nonneg hP (by linarith)
    exact div_nonneg this (by linarith)

/-! ### Normal form of the two plain generators -/

lemma priceLoop_eq_map (P r pmt fee segM infM : ℚ) (n : ℕ) (hr : 0 ≤ r)
    (hz : ¬ 1 / 100 < saldoPrice P r pmt n) :
    ∀ k m, m + k = n →
      priceLoop r fee segM infM pmt n k (m + 1) (saldoPrice P r pmt m) =
        (List.range k).map (fun j => priceRowG P r pmt fee segM infM (m + j)) := by
  intro k
  induction k with
  | zero => intro m _; simp [priceLoop]
  | succ k ih =>
    intro m hm
    have hstep := saldoPrice_step P r pmt hr m
    have hres : ¬ (m + 1 = n ∧ 1 / 100 < saldoPrice P r pmt m -
        (if 0 < r then pmt - saldoPrice P r pmt m * r else pmt)) := by
      rw [hstep]
      rintro ⟨h1, h2⟩
      rw [show saldoPrice P r pmt m - (saldoPrice P r pmt m - saldoPrice P r pmt (m + 1))
          = saldoPrice P r pmt (m + 1) from by ring, h1] at h2
      exact hz h2
    rw [priceLoop, List.range_succ_eq_map, List.map_cons, List.map_map]
    simp only [if_neg hres]
    congr 1
    · rw [priceRowG]
      congr 1 <;> rw [hstep] <;> ring
    · rw [show saldoPrice P r pmt m - (if 0 < r then pmt - saldoPrice P r pmt m * r else pmt)
          = saldoPrice P r pmt (m + 1) from by rw [hstep]; ring]
      rw [ih (m + 1) (by omega)]
      congr 1
      funext j
      simp only [Function.comp_apply]
      congr 1
      omega

lemma calcular_cronograma_price_eq (P taxa : ℚ) (n : ℕ) (fee seg infM : ℚ)
    (hr : 0 ≤ taxa) (hn : 1 ≤ n) :
    calcular_cronograma_price P taxa n fee seg infM =
      (List.range n).map
        (priceRowG P (taxa / 12) (pmtPrice (taxa / 12) n P) fee (seg / 12) infM) := by
  have hr' : 0 ≤ taxa / 12 := by positivity
  have hz : ¬ 1 / 100 < saldoPrice P (taxa / 12) (pmtPrice (taxa / 12) n P) n := by
    rw [saldoPrice_final P (taxa / 12) n hr' hn]
    norm_num
  have h := priceLoop_eq_map P (taxa / 12) (pmtPrice (taxa / 12) n P) fee (seg / 12)
    infM n hr' hz n 0 (by omega)
  rw [calcular_cronograma_price]
  simpa using h

lemma sacLoop_eq_map (P r fee segM infM : ℚ) (n : ℕ) :
    ∀ k m, m + k = n →
      sacLoop r fee segM infM (P / n) n k (m + 1) (saldoSac P n m) =
        (List.range k).map (fun j => sacRowG P r fee segM infM n (m + j)) := by
  intro k
  induction k with
  | zero => intro m _; simp [sacLoop]
  | succ k ih =>
    intro m hm
    have hstep : saldoSac P n m - P / n = saldoSac P n (m + 1) := by
      rw [saldoSac, saldoSac]
      push_cast
      ring
    rw [sacLoop, List.range_succ_eq_map, List.map_cons, List.map_map]
    refine List.cons_eq_cons.mpr ⟨rfl, ?_⟩
    rcases k with _ | k
    · simp [sacLoop]
    · have hmn : ¬ m + 1 = n := by omega
      rw [if_neg hmn, hstep, ih (m + 1) (by omega)]
      congr 1
      funext j
      simp only [Function.comp_apply]
      congr 1
      omega

lemma calcular_cronograma_sac_eq (P taxa : ℚ) (n : ℕ) (fee seg infM : ℚ) :
    calcular_cronograma_sac P taxa n fee seg infM =
      (List.range n).map (sacRowG P (taxa / 12) fee (seg / 12) infM n) := by
  have h := sacLoop_eq_map P (taxa / 12) fee (seg / 12) infM n n 0 (by omega)
  rw [calcular_cronograma_sac]
  have h0 : saldoSac P n 0 = P := by rw [saldoSac]; push_cast; ring
  rw [h0] at h
  simpa using h

/-! ### Derived facts about the plain schedules -/

lemma saldoSac_nonneg (P : ℚ) (n m : ℕ) (hP : 0 ≤ P) (hm : m ≤ n) :
    0 ≤ saldoSac P n m := by
  rcases Nat.eq_zero_or_pos n with h | h
  · subst h
    simp [saldoSac]
    exact hP
  · have hn' : (0 : ℚ) < (n : ℚ) := by exact_mod_cast h
    have hmn : (m : ℚ) ≤ (n : ℚ) := by exact_mod_cast hm
    rw [saldoSac, show P - m * (P / n) = P * ((n : ℚ) - m) / n from by field_simp; ring]
    exact div_nonneg (mul_nonneg hP (by linarith)) (le_of_lt hn')

lemma map_range_getLast {α : Type} (f : ℕ → α) (n : ℕ) (hn : 1 ≤ n) :
    ((List.range n).map f).getLast? = some (f (n - 1)) := by
  obtain ⟨k, rfl⟩ : ∃ k, n = k + 1 := ⟨n - 1, by omega⟩
  rw [List.range_succ, List.map_append, List.map_cons, List.map_nil,
    List.getLast?_concat]
  simp

lemma sum_map_range (f : ℕ → ℚ) : ∀ n, ((List.range n).map f).sum = ∑ i ∈ Finset.range n, f i := by
  intro n
  induction n with
  | zero => simp
  | succ k ih =>
    rw [List.range_succ, List.map_append, List.sum_append, Finset.sum_range_succ, ih]
    simp

lemma price_mem_row (P taxa : ℚ) (n : ℕ) (fee seg infM : ℚ) (hr : 0 ≤ taxa) (hn : 1 ≤ n)
    (row : Row) (hrow : row ∈ calcular_cronograma_price P taxa n fee seg infM) :
    ∃ j < n, row = priceRowG P (taxa / 12) (pmtPrice (taxa / 12) n P) fee (seg / 12) infM j := by
  rw [calcular_cronograma_price_eq P taxa n fee seg infM hr hn] at hrow
  obtain ⟨j, hj, rfl⟩ := List.mem_map.mp hrow
  exact ⟨j, List.mem_range.mp hj, rfl⟩

lemma sac_mem_row (P taxa : ℚ) (n : ℕ) (fee seg infM : ℚ)
    (row : Row) (hrow : row ∈ calcular_cronograma_sac P taxa n fee seg infM) :
    ∃ j < n, row = sacRowG P (taxa / 12) fee (seg / 12) infM n j := by
  rw [calcular_cronograma_sac_eq P taxa n fee seg infM] at hrow
  obtain ⟨j, hj, rfl⟩ := List.mem_map.mp hrow
  exact ⟨j, List.mem_range.mp hj, rfl⟩

lemma price_saldo_nonneg (P taxa : ℚ) (n : ℕ) (fee seg infM : ℚ)
    (hP : 0 ≤ P) (hr : 0 ≤ taxa) (hn : 1 ≤ n) (row : Row)
    (hrow : row ∈ calcular_cronograma_price P taxa n fee seg infM) :
    0 ≤ row.saldoDevedor := by
  obtain ⟨j, hj, rfl⟩ := price_mem_row P taxa n fee seg infM hr hn row hrow
  have : 0 ≤ saldoPrice P (taxa / 12) (pmtPrice (taxa / 12) n P) (j + 1) :=
    saldoPrice_nonneg P (taxa / 12) n (j + 1) (by positivity) hP hn (by omega)
  simpa [priceRowG] using this

lemma price_last_zero (P taxa : ℚ) (n : ℕ) (fee seg infM : ℚ)
    (hr : 0 ≤ taxa) (hn : 1 ≤ n) (row : Row)
    (hrow : (calcular_cronograma_price P taxa n fee seg infM).getLast? = some row) :
    row.saldoDevedor = 0 := by
  rw [calcular_cronograma_price_eq P taxa n fee seg infM hr hn,
    map_range_getLast _ n hn] at hrow
  obtain rfl : priceRowG P (taxa / 12) (pmtPrice (taxa / 12) n P) fee (seg / 12) infM (n - 1)
      = row := Option.some.inj hrow
  have h1 : n - 1 + 1 = n := by omega
  rw [priceRowG]
  simp only [h1]
  exact saldoPrice_final P (taxa / 12) n (by positivity) hn

lemma sac_saldo_nonneg (P taxa : ℚ) (n : ℕ) (fee seg infM : ℚ)
    (hP : 0 ≤ P) (row : Row)
    (hrow : row ∈ calcular_cronograma_sac P taxa n fee seg infM) :
    0 ≤ row.saldoDevedor := by
  obtain ⟨j, hj, rfl⟩ := sac_mem_row P taxa n fee seg infM row hrow
  rw [sacRowG]
  simp only
  split
  · exact le_refl 0
  · have h := saldoSac_nonneg P n (j + 1) hP (by omega)
    rw [saldoSac] at h ⊢
    push_cast at h
    linarith

lemma sac_last_zero (P taxa : ℚ) (n : ℕ) (fee seg infM : ℚ) (hn : 1 ≤ n) (row : Row)
    (hrow : (calcular_cronograma_sac P taxa n fee seg infM).getLast? = some row) :
    row.saldoDevedor = 0 := by
  rw [calcular_cronograma_sac_eq P taxa n fee seg infM, map_range_getLast _ n hn] at hrow
  obtain rfl : sacRowG P (taxa / 12) fee (seg / 12) infM n (n - 1) = row :=
    Option.some.inj hrow
  rw [sacRowG]
  simp only
  rw [if_pos (by omega)]

lemma price_sumAmort (P taxa : ℚ) (n : ℕ) (fee seg infM : ℚ)
    (hr : 0 ≤ taxa) (hn : 1 ≤ n) :
    sumAmort (calcular_cronograma_price P taxa n fee seg infM) = P := by
  rw [sumAmort, calcular_cronograma_price_eq P taxa n fee seg infM hr hn,
    List.map_map]
  have : (Row.amortizacao ∘ priceRowG P (taxa / 12) (pmtPrice (taxa / 12) n P) fee (seg / 12) infM)
      = fun j => saldoPrice P (taxa / 12) (pmtPrice (taxa / 12) n P) j -
          saldoPrice P (taxa / 12) (pmtPrice (taxa / 12) n P) (j + 1) := by
    funext j
    rw [Function.comp_apply, priceRowG]
  rw [this, sum_map_range, Finset.sum_range_sub']
  rw [show saldoPrice P (taxa / 12) (pmtPrice (taxa / 12) n P) 0 = P from rfl,
    saldoPrice_final P (taxa / 12) n (by positivity) hn, sub_zero]

lemma sac_sumAmort (P taxa : ℚ) (n : ℕ) (fee seg infM : ℚ) (hn : 1 ≤ n) :
    sumAmort (calcular_cronograma_sac P taxa n fee seg infM) = P := by
  rw [sumAmort, calcular_cronograma_sac_eq P taxa n fee seg infM, List.map_map]
  have : (Row.amortizacao ∘ sacRowG P (taxa / 12) fee (seg / 12) infM n)
      = fun _ => P / n := by
    funext j
    rw [Function.comp_apply, sacRowG]
  rw [this, sum_map_range]
  rw [Finset.sum_const, Finset.card_range, nsmul_eq_mul]
  have hn' : (n : ℚ) ≠ 0 := Nat.cast_ne_zero.mpr (by omega)
  field_simp

/-! ### Step lemmas for the prepayment simulator -/

lemma simLoop_stop (p : SimParams) (f : ℕ) (s : SimState)
    (hstop : ¬ (1 / 100 < s.saldo ∧ (s.mes : ℤ) ≤ s.prazoTotal)) :
    simLoop p f s = [] := by
  cases f with
  | zero => rfl
  | succ f => rw [simLoop, if_neg hstop]

lemma simLoop_sac_plain (p : SimParams) (f : ℕ) (s : SimState)
    (htipo : p.tipo = Sistema.SAC)
    (hg1 : 1 / 100 < s.saldo) (hg2 : (s.mes : ℤ) ≤ s.prazoTotal)
    (hfire : ¬ extraFires p s.mes)
    (hnc : s.base ≤ s.saldo)
    (hres : ¬ ((s.mes : ℤ) = s.prazoTotal ∧ 1 / 100 < s.saldo - s.base)) :
    simLoop p (f + 1) s =
      ⟨s.mes, s.base + s.saldo * p.r + p.fee + s.saldo * p.segM, s.saldo * p.r,
        s.base, s.saldo * p.segM, p.fee, s.saldo - s.base,
        (s.base + s.saldo * p.r + p.fee + s.saldo * p.segM) / (1 + p.infM) ^ s.mes⟩ ::
      simLoop p f ⟨s.saldo - s.base, s.mes + 1, s.prazoTotal, s.base⟩ := by
  have hSP : ¬ (Sistema.SAC = Sistema.Price) := by decide
  have hclamp : ¬ (s.saldo < s.base) := not_lt.mpr hnc
  rw [simLoop, if_pos ⟨hg1, hg2⟩]
  simp only [simStep, htipo, hfire, hSP, hclamp, hres, add_zero, if_false,
    ite_false, lt_self_iff_false, false_and, if_true, ite_true]

lemma simLoop_sac_plain_residual (p : SimParams) (f : ℕ) (s : SimState)
    (htipo : p.tipo = Sistema.SAC)
    (hg1 : 1 / 100 < s.saldo)
    (hfire : ¬ extraFires p s.mes)
    (hnc : s.base ≤ s.saldo)
    (hmes : (s.mes : ℤ) = s.prazoTotal)
    (hbig : 1 / 100 < s.saldo - s.base) :
    simLoop p (f + 1) s =
      ⟨s.mes, s.base + s.saldo * p.r + p.fee + s.saldo * p.segM + (s.saldo - s.base),
        s.saldo * p.r, s.base + (s.saldo - s.base), s.saldo * p.segM, p.fee, 0,
        (s.base + s.saldo * p.r + p.fee + s.saldo * p.segM + (s.saldo - s.base)) /
          (1 + p.infM) ^ s.mes⟩ ::
      simLoop p f ⟨0, s.mes + 1, s.prazoTotal, s.base⟩ := by
  have hSP : ¬ (Sistema.SAC = Sistema.Price) := by decide
  have hclamp : ¬ (s.saldo < s.base) := not_lt.mpr hnc
  have hres : (s.mes : ℤ) = s.prazoTotal ∧ 1 / 100 < s.saldo - s.base := ⟨hmes, hbig⟩
  rw [simLoop, if_pos ⟨hg1, hmes.le⟩]
  simp only [simStep, htipo, hfire, hSP, hclamp, hres, add_zero, if_false,
    ite_false, lt_self_iff_false, false_and, if_true, ite_true, and_true,
    and_false, (by norm_num : ¬ ((1 : ℚ) / 100 < 0))]

lemma simLoop_sac_extra_stop (p : SimParams) (f : ℕ) (s : SimState)
    (htipo : p.tipo = Sistema.SAC)
    (hg1 : 1 / 100 < s.saldo) (hg2 : (s.mes : ℤ) ≤ s.prazoTotal)
    (hfire : extraFires p s.mes)
    (hnc : s.base + p.valorExtra ≤ s.saldo)
    (hmes : (s.mes : ℤ) ≠ s.prazoTotal)
    (hsmall : ¬ (1 / 100 < s.saldo - (s.base + p.valorExtra))) :
    simLoop p (f + 1) s =
      ⟨s.mes, s.base + p.valorExtra + s.saldo * p.r + p.fee + s.saldo * p.segM,
        s.saldo * p.r, s.base + p.valorExtra, s.saldo * p.segM, p.fee,
        s.saldo - (s.base + p.valorExtra),
        (s.base + p.valorExtra + s.saldo * p.r + p.fee + s.saldo * p.segM) /
          (1 + p.infM) ^ s.mes⟩ ::
      simLoop p f ⟨s.saldo - (s.base + p.valorExtra), s.mes + 1, s.prazoTotal, s.base⟩ := by
  have hSP : ¬ (Sistema.SAC = Sistema.Price) := by decide
  have hclamp : ¬ (s.saldo < s.base + p.valorExtra) := not_lt.mpr hnc
  rw [simLoop, if_pos ⟨hg1, hg2⟩]
  simp only [simStep, htipo, if_pos hfire, hSP, hclamp, hmes, hsmall, false_and,
    and_false, true_and, and_true, if_false, ite_false, if_true, ite_true]

lemma simLoop_sac_extra_prazo (p : SimParams) (f : ℕ) (s : SimState)
    (htipo : p.tipo = Sistema.SAC) (hestr : p.estrategia = Estrategia.prazo)
    (hg1 : 1 / 100 < s.saldo) (hg2 : (s.mes : ℤ) ≤ s.prazoTotal)
    (hfire : extraFires p s.mes)
    (hnc : s.base + p.valorExtra ≤ s.saldo)
    (hmes : (s.mes : ℤ) ≠ s.prazoTotal)
    (hex : 0 < p.valorExtra)
    (hbig : 1 / 100 < s.saldo - (s.base + p.valorExtra)) :
    simLoop p (f + 1) s =
      ⟨s.mes, s.base + p.valorExtra + s.saldo * p.r + p.fee + s.saldo * p.segM,
        s.saldo * p.r, s.base + p.valorExtra, s.saldo * p.segM, p.fee,
        s.saldo - (s.base + p.valorExtra),
        (s.base + p.valorExtra + s.saldo * p.r + p.fee + s.saldo * p.segM) /
          (1 + p.infM) ^ s.mes⟩ ::
      simLoop p f ⟨s.saldo - (s.base + p.valorExtra), s.mes + 1,
        (s.mes : ℤ) + pyInt ((s.saldo - (s.base + p.valorExtra)) / s.base + 99 / 100),
        s.base⟩ := by
  have hSP : ¬ (Sistema.SAC = Sistema.Price) := by decide
  have hPP : ¬ (Estrategia.prazo = Estrategia.parcela) := by decide
  have hclamp : ¬ (s.saldo < s.base + p.valorExtra) := not_lt.mpr hnc
  rw [simLoop, if_pos ⟨hg1, hg2⟩]
  simp only [simStep, htipo, hestr, if_pos hfire, hSP, hPP, hclamp, hmes, hbig, hex,
    false_and, and_false, true_and, and_true, if_false, ite_false, if_true, ite_true]

lemma simLoop_sac_clamp (p : SimParams) (f : ℕ) (s : SimState)
    (htipo : p.tipo = Sistema.SAC)
    (hg1 : 1 / 100 < s.saldo) (hg2 : (s.mes : ℤ) ≤ s.prazoTotal)
    (hfire : extraFires p s.mes)
    (hcl : s.saldo < s.base + p.valorExtra) :
    simLoop p (f + 1) s =
      ⟨s.mes, s.saldo + s.saldo * p.r + s.saldo * p.r + p.fee + s.saldo * p.segM,
        s.saldo * p.r, s.saldo + s.saldo * p.r, s.saldo * p.segM, p.fee,
        s.saldo - (s.base + (s.saldo - s.base)),
        (s.saldo + s.saldo * p.r + s.saldo * p.r + p.fee + s.saldo * p.segM) /
          (1 + p.infM) ^ s.mes⟩ ::
      simLoop p f ⟨s.saldo - (s.base + (s.saldo - s.base)), s.mes + 1,
        s.prazoTotal, s.base⟩ := by
  have hSP : ¬ (Sistema.SAC = Sistema.Price) := by decide
  have h0 : s.saldo - (s.base + (s.saldo - s.base)) = 0 := by ring
  have hrec2 : ¬ (1 / 100 < s.saldo - (s.base + (s.saldo - s.base))) := by
    rw [h0]
    norm_num
  rw [simLoop, if_pos ⟨hg1, hg2⟩]
  simp only [simStep, htipo, if_pos hfire, hSP, hcl, hrec2, false_and,
    and_false, true_and, and_true, if_false, ite_false, if_true, ite_true]

lemma simLoop_price_plain (p : SimParams) (f : ℕ) (s : SimState)
    (htipo : p.tipo = Sistema.Price)
    (hg1 : 1 / 100 < s.saldo) (hg2 : (s.mes : ℤ) ≤ s.prazoTotal)
    (hfire : ¬ extraFires p s.mes)
    (hclamp : ¬ (s.saldo < s.base - s.saldo * p.r))
    (hres : ¬ ((s.mes : ℤ) = s.prazoTotal ∧
      1 / 100 < s.saldo - (s.base - s.saldo * p.r))) :
    simLoop p (f + 1) s =
      ⟨s.mes, s.base - s.saldo * p.r + s.saldo * p.r + p.fee + s.saldo * p.segM,
        s.saldo * p.r, s.base - s.saldo * p.r, s.saldo * p.segM, p.fee,
        s.saldo - (s.base - s.saldo * p.r),
        (s.base - s.saldo * p.r + s.saldo * p.r + p.fee + s.saldo * p.segM) /
          (1 + p.infM) ^ s.mes⟩ ::
      simLoop p f ⟨s.saldo - (s.base - s.saldo * p.r), s.mes + 1, s.prazoTotal, s.base⟩ := by
  rw [simLoop, if_pos ⟨hg1, hg2⟩]
  simp only [simStep, htipo, hfire, hclamp, hres, eq_self_iff_true, add_zero,
    if_false, ite_false, lt_self_iff_false, false_and, if_true, ite_true]

/-- Every row the simulator step emits satisfies the CET identity
`parcela = amortizacao + juros + taxaAdm + seguro` exactly (line 198 of the
source builds the payment this way, and the residual correction adds the same
remainder to payment and principal). -/
lemma simStep_row_identity (p : SimParams) (s : SimState) :
    (simStep p s).2.parcela = (simStep p s).2.amortizacao + (simStep p s).2.juros +
      (simStep p s).2.taxaAdm + (simStep p s).2.seguro := by
  simp only [simStep]
  split_ifs <;> ring

/-- The closing balance the simulator step records is never negative: the
clamp (lines 192-196) zeroes it exactly on overpayment, and otherwise the
subtraction is bounded by the balance. -/
lemma simStep_row_saldo_nonneg (p : SimParams) (s : SimState) :
    0 ≤ (simStep p s).2.saldoDevedor := by
  simp only [simStep]
  split_ifs <;> linarith

lemma simLoop_mem_all (p : SimParams) {Q : Row → Prop}
    (hQ : ∀ s, Q (simStep p s).2) :
    ∀ fuel s, ∀ row ∈ simLoop p fuel s, Q row := by
  intro fuel
  induction fuel with
  | zero => intro s row h; simp [simLoop] at h
  | succ f ih =>
    intro s row h
    simp only [simLoop] at h
    by_cases hg : 1 / 100 < s.saldo ∧ (s.mes : ℤ) ≤ s.prazoTotal
    · rw [if_pos hg] at h
      rcases List.mem_cons.mp h with h | h
      · exact h ▸ hQ s
      · exact ih _ row h
    · rw [if_neg hg] at h
      simp at h

/-! ### With zero extra payment the simulator replays the plain generators -/

lemma saldoSac_step (P : ℚ) (n m : ℕ) :
    saldoSac P n m - P / n = saldoSac P n (m + 1) := by
  rw [saldoSac, saldoSac]
  push_cast
  ring

lemma saldoSac_full (P : ℚ) (n : ℕ) (hn : 1 ≤ n) : saldoSac P n n = 0 := by
  have hn' : (n : ℚ) ≠ 0 := Nat.cast_ne_zero.mpr (by omega)
  rw [saldoSac]
  field_simp

lemma simLoop_sac_zero_extra (p : SimParams) (P : ℚ) (n : ℕ)
    (htipo : p.tipo = Sistema.SAC) (hve : p.valorExtra = 0)
    (hP : 0 ≤ P) (hn : 1 ≤ n)
    (hgt : ∀ m, m < n → 1 / 100 < saldoSac P n m) :
    ∀ k m f, m + k = n → k ≤ f →
      simLoop p f ⟨saldoSac P n m, m + 1, (n : ℤ), P / n⟩ =
        sacLoop p.r p.fee p.segM p.infM (P / n) n k (m + 1) (saldoSac P n m) := by
  intro k
  induction k with
  | zero =>
    intro m f hm _
    have hm' : m = n := by omega
    subst hm'
    have h0 := saldoSac_full P m hn
    refine (simLoop_stop p f _ ?_).trans rfl
    rintro ⟨h1, -⟩
    dsimp only at h1
    rw [h0] at h1
    norm_num at h1
  | succ k ih =>
    intro m f hm hf
    obtain ⟨f', rfl⟩ : ∃ f', f = f' + 1 := ⟨f - 1, by omega⟩
    have hmn : m < n := by omega
    have hfire : ¬ extraFires p
        ((⟨saldoSac P n m, m + 1, (n : ℤ), P / n⟩ : SimState)).mes := by
      rintro ⟨h1, -⟩
      rw [hve] at h1
      exact lt_irrefl 0 h1
    have hg1 : 1 / 100 < saldoSac P n m := hgt m hmn
    have hg2 : ((m + 1 : ℕ) : ℤ) ≤ (n : ℤ) := by exact_mod_cast (by omega : m + 1 ≤ n)
    have hnn1 : 0 ≤ saldoSac P n (m + 1) := saldoSac_nonneg P n (m + 1) hP (by omega)
    have hnc : P / n ≤ saldoSac P n m := by
      have := saldoSac_step P n m
      linarith
    have hres : ¬ (((m + 1 : ℕ) : ℤ) = (n : ℤ) ∧ 1 / 100 < saldoSac P n m - P / n) := by
      rintro ⟨h1, h2⟩
      have h1' : m + 1 = n := by exact_mod_cast h1
      rw [saldoSac_step P n m, h1', saldoSac_full P n hn] at h2
      norm_num at h2
    rw [simLoop_sac_plain p f' _ htipo hg1 hg2 hfire hnc hres]
    dsimp only
    rw [sacLoop]
    have hsaldo2 : (if m + 1 = n then (0 : ℚ) else saldoSac P n m - P / n) =
        saldoSac P n (m + 1) := by
      split
      · rename_i h
        rw [← saldoSac_full P n hn, ← h]
      · exact saldoSac_step P n m
    rw [hsaldo2, saldoSac_step P n m, ih (m + 1) f' (by omega) (by omega)]

lemma simLoop_price_zero_extra (p : SimParams) (P : ℚ) (n : ℕ)
    (htipo : p.tipo = Sistema.Price) (hve : p.valorExtra = 0)
    (hr : 0 ≤ p.r) (hP : 0 ≤ P) (hn : 1 ≤ n)
    (hgt : ∀ m, m < n → 1 / 100 < saldoPrice P p.r (pmtPrice p.r n P) m) :
    ∀ k m f, m + k = n → k ≤ f →
      simLoop p f ⟨saldoPrice P p.r (pmtPrice p.r n P) m, m + 1, (n : ℤ),
          pmtPrice p.r n P⟩ =
        priceLoop p.r p.fee p.segM p.infM (pmtPrice p.r n P) n k (m + 1)
          (saldoPrice P p.r (pmtPrice p.r n P) m) := by
  set pmt := pmtPrice p.r n P with hpmt
  have hz := saldoPrice_final P p.r n hr hn
  intro k
  induction k with
  | zero =>
    intro m f hm _
    have hm' : m = n := by omega
    subst hm'
    refine (simLoop_stop p f _ ?_).trans rfl
    rintro ⟨h1, -⟩
    dsimp only at h1
    rw [hz] at h1
    norm_num at h1
  | succ k ih =>
    intro m f hm hf
    obtain ⟨f', rfl⟩ : ∃ f', f = f' + 1 := ⟨f - 1, by omega⟩
    have hmn : m < n := by omega
    have hfire : ¬ extraFires p
        ((⟨saldoPrice P p.r pmt m, m + 1, (n : ℤ), pmt⟩ : SimState)).mes := by
      rintro ⟨h1, -⟩
      rw [hve] at h1
      exact lt_irrefl 0 h1
    have hst : saldoPrice P p.r pmt m - (pmt - saldoPrice P p.r pmt m * p.r) =
        saldoPrice P p.r pmt (m + 1) := by
      rw [saldoPrice]
      ring
    have hg1 : 1 / 100 < saldoPrice P p.r pmt m := hgt m hmn
    have hg2 : ((m + 1 : ℕ) : ℤ) ≤ (n : ℤ) := by exact_mod_cast (by omega : m + 1 ≤ n)
    have hnn1 : 0 ≤ saldoPrice P p.r pmt (m + 1) :=
      saldoPrice_nonneg P p.r n (m + 1) hr hP hn (by omega)
    have hclamp : ¬ (saldoPrice P p.r pmt m < pmt - saldoPrice P p.r pmt m * p.r) := by
      rw [not_lt]
      linarith
    have hres : ¬ (((m + 1 : ℕ) : ℤ) = (n : ℤ) ∧
        1 / 100 < saldoPrice P p.r pmt m - (pmt - saldoPrice P p.r pmt m * p.r)) := by
      rintro ⟨h1, h2⟩
      have h1' : m + 1 = n := by exact_mod_cast h1
      rw [hst, h1', hz] at h2
      norm_num at h2
    have hamort : (if 0 < p.r then pmt - saldoPrice P p.r pmt m * p.r else pmt) =
        pmt - saldoPrice P p.r pmt m * p.r := by
      rcases hr.eq_or_lt with h | h
      · rw [if_neg (by rw [← h]; exact lt_irrefl 0), ← h]
        ring
      · rw [if_pos h]
    rw [simLoop_price_plain p f' _ htipo hg1 hg2 hfire hclamp hres]
    dsimp only
    rw [priceLoop]
    have hresN : ¬ (m + 1 = n ∧
        1 / 100 < saldoPrice P p.r pmt m - (pmt - saldoPrice P p.r pmt m * p.r)) := by
      rintro ⟨h1, h2⟩
      exact hres ⟨by exact_mod_cast h1, h2⟩
    refine List.cons_eq_cons.mpr ⟨?_, ?_⟩
    · simp only [hamort, if_neg hresN, Row.mk.injEq]
      and_intros <;> first | trivial | ring
    · simp only [hamort, if_neg hresN]
      rw [hst]
      exact ih (m + 1) f' (by omega) (by omega)

/-! ### The investment projector -/

lemma invAcc_pow (v i : ℝ) : ∀ m, invAcc v i m = v * (1 + i) ^ m := by
  intro m
  induction m with
  | zero => simp [invAcc]
  | succ k ih => rw [invAcc, ih]; ring

lemma invLoop_eq_map (i v : ℝ) :
    ∀ k m, invLoop i k (m + 1) (invAcc v i m) =
      (List.range k).map
        (fun j => ⟨m + j + 1, invAcc v i (m + j) * i, invAcc v i (m + j + 1)⟩) := by
  intro k
  induction k with
  | zero => intro m; simp [invLoop]
  | succ k ih =>
    intro m
    rw [invLoop, List.range_succ_eq_map, List.map_cons, List.map_map]
    refine List.cons_eq_cons.mpr ⟨?_, ?_⟩
    · show (⟨m + 1, invAcc v i m * i, invAcc v i m + invAcc v i m * i⟩ : InvRow) = _
      have : invAcc v i m + invAcc v i m * i = invAcc v i (m + 1) := rfl
      simp [this]
    · have hacc : invAcc v i m + invAcc v i m * i = invAcc v i (m + 1) := rfl
      rw [hacc, ih (m + 1)]
      congr 1
      funext j
      simp only [Function.comp_apply]
      have h1 : m + (j + 1) = m + 1 + j := by omega
      rw [h1]

lemma calcular_investimento_eq (v taxa : ℝ) (n : ℕ) :
    calcular_investimento v taxa n =
      (invAcc v (taxaMensalInv taxa) n - v,
        (List.range n).map (fun j =>
          ⟨j + 1, invAcc v (taxaMensalInv taxa) j * taxaMensalInv taxa,
            invAcc v (taxaMensalInv taxa) (j + 1)⟩)) := by
  rw [calcular_investimento]
  have h := invLoop_eq_map (taxaMensalInv taxa) v n 0
  rw [show invAcc v (taxaMensalInv taxa) 0 = v from rfl] at h
  rw [h]
  simp

/-! ### Unfolding helpers -/

lemma calcular_simulacao_extra_sac (fuel : ℕ) (P taxa : ℚ) (n : ℕ)
    (estrategia : Estrategia) (fee seg : ℚ) (te : TipoExtra) (ve : ℚ) (mi : ℕ)
    (infM : ℚ) :
    calcular_simulacao_extra fuel Sistema.SAC P taxa n estrategia fee seg te ve mi infM =
      simLoop ⟨Sistema.SAC, estrategia, te, taxa / 12, fee, seg / 12, ve, mi, infM⟩
        fuel ⟨P, 1, (n : ℤ), P / n⟩ := by
  rw [calcular_simulacao_extra, if_neg (by decide : ¬ (Sistema.SAC = Sistema.Price))]

lemma calcular_simulacao_extra_price (fuel : ℕ) (P taxa : ℚ) (n : ℕ)
    (estrategia : Estrategia) (fee seg : ℚ) (te : TipoExtra) (ve : ℚ) (mi : ℕ)
    (infM : ℚ) :
    calcular_simulacao_extra fuel Sistema.Price P taxa n estrategia fee seg te ve mi infM =
      simLoop ⟨Sistema.Price, estrategia, te, taxa / 12, fee, seg / 12, ve, mi, infM⟩
        fuel ⟨P, 1, (n : ℤ), pmtPrice (taxa / 12) n P⟩ := by
  rw [calcular_simulacao_extra, if_pos rfl]

lemma map_range_head {α : Type} (f : ℕ → α) (n : ℕ) (hn : 1 ≤ n) :
    ((List.range n).map f).head? = some (f 0) := by
  obtain ⟨k, rfl⟩ : ∃ k, n = k + 1 := ⟨n - 1, by omega⟩
  rw [List.range_succ_eq_map, List.map_cons]
  rfl

/-! ### Claim theorems -/

/-- C1 (counterexample): with SAC, principal 100, zero rate, term 10 and a
single prepayment of 89.995 in month 1, the loop stops with a final recorded
closing balance of 0.005, which is not zero. -/
theorem C1_counterexample :
    (calcular_simulacao_extra 100 Sistema.SAC 100 0 10 Estrategia.parcela 0 0
        TipoExtra.unico (17999 / 200) 1 0).getLast?.map Row.saldoDevedor =
      some (1 / 200) ∧ (1 / 200 : ℚ) ≠ 0 := by
  refine ⟨?_, by norm_num⟩
  rw [calcular_simulacao_extra_sac, show (100 : ℕ) = 99 + 1 from rfl,
    simLoop_sac_extra_stop _ 99 _ rfl (by norm_num) (by norm_num)
      ⟨by norm_num, Or.inl ⟨rfl, rfl⟩⟩ (by norm_num) (by norm_num) (by norm_num),
    simLoop_stop _ 99 _ (by rintro ⟨h1, -⟩; norm_num at h1)]
  norm_num [List.getLast?]

/-- C1 (amended): the plain Price and SAC schedules end with closing balance
exactly zero and never record a negative closing balance; the prepayment
simulator never records a negative closing balance, but its final balance can
be a small positive residue instead of zero (see `C1_counterexample`). -/
theorem C1_balances :
    (∀ P taxa : ℚ, ∀ n : ℕ, ∀ fee seg infM : ℚ, 0 < P → 0 ≤ taxa → 1 ≤ n →
      (∀ row ∈ calcular_cronograma_price P taxa n fee seg infM, 0 ≤ row.saldoDevedor) ∧
      (∀ row : Row, (calcular_cronograma_price P taxa n fee seg infM).getLast? = some row →
        row.saldoDevedor = 0)) ∧
    (∀ P taxa : ℚ, ∀ n : ℕ, ∀ fee seg infM : ℚ, 0 < P → 1 ≤ n →
      (∀ row ∈ calcular_cronograma_sac P taxa n fee seg infM, 0 ≤ row.saldoDevedor) ∧
      (∀ row : Row, (calcular_cronograma_sac P taxa n fee seg infM).getLast? = some row →
        row.saldoDevedor = 0)) ∧
    (∀ fuel : ℕ, ∀ tipo : Sistema, ∀ P taxa : ℚ, ∀ n : ℕ, ∀ estrategia : Estrategia,
      ∀ fee seg : ℚ, ∀ te : TipoExtra, ∀ ve : ℚ, ∀ mi : ℕ, ∀ infM : ℚ,
      ∀ row ∈ calcular_simulacao_extra fuel tipo P taxa n estrategia fee seg te ve mi infM,
        0 ≤ row.saldoDevedor) := by
  refine ⟨?_, ?_, ?_⟩
  · intro P taxa n fee seg infM hP hr hn
    exact ⟨fun row hrow => price_saldo_nonneg P taxa n fee seg infM hP.le hr hn row hrow,
      fun row hrow => price_last_zero P taxa n fee seg infM hr hn row hrow⟩
  · intro P taxa n fee seg infM hP hn
    exact ⟨fun row hrow => sac_saldo_nonneg P taxa n fee seg infM hP.le row hrow,
      fun row hrow => sac_last_zero P taxa n fee seg infM hn row hrow⟩
  · intro fuel tipo P taxa n estrategia fee seg te ve mi infM
    rw [calcular_simulacao_extra]
    exact simLoop_mem_all _ (fun s => simStep_row_saldo_nonneg _ s) fuel _

/-- C1 (witness): the amended theorem applied at a concrete valid instance. -/
theorem C1_witness :
    (0 : ℚ) < 100 ∧ (0 : ℚ) ≤ 0 ∧ (1 ≤ 2) ∧
    (∀ row ∈ calcular_cronograma_price 100 0 2 0 0 0, 0 ≤ row.saldoDevedor) ∧
    (∀ row ∈ calcular_cronograma_sac 100 0 2 0 0 0, 0 ≤ row.saldoDevedor) ∧
    (∀ row ∈ calcular_simulacao_extra 10 Sistema.SAC 100 0 2 Estrategia.parcela 0 0
        TipoExtra.unico 0 1 0, 0 ≤ row.saldoDevedor) :=
  ⟨by norm_num, le_refl 0, by norm_num,
    (C1_balances.1 100 0 2 0 0 0 (by norm_num) (le_refl 0) (by norm_num)).1,
    (C1_balances.2.1 100 0 2 0 0 0 (by norm_num) (by norm_num)).1,
    C1_balances.2.2 10 Sistema.SAC 100 0 2 Estrategia.parcela 0 0 TipoExtra.unico 0 1 0⟩

/-- C8 (confirmed): in every row of every schedule produced by the three
generators, the payment equals principal portion + interest + fixed fee +
insurance — exactly, hence in particular within any relative tolerance. -/
theorem C8_row_identity :
    (∀ P taxa : ℚ, ∀ n : ℕ, ∀ fee seg infM : ℚ, 0 ≤ taxa → 1 ≤ n →
      ∀ row ∈ calcular_cronograma_price P taxa n fee seg infM,
        row.parcela = row.amortizacao + row.juros + row.taxaAdm + row.seguro) ∧
    (∀ P taxa : ℚ, ∀ n : ℕ, ∀ fee seg infM : ℚ,
      ∀ row ∈ calcular_cronograma_sac P taxa n fee seg infM,
        row.parcela = row.amortizacao + row.juros + row.taxaAdm + row.seguro) ∧
    (∀ fuel : ℕ, ∀ tipo : Sistema, ∀ P taxa : ℚ, ∀ n : ℕ, ∀ estrategia : Estrategia,
      ∀ fee seg : ℚ, ∀ te : TipoExtra, ∀ ve : ℚ, ∀ mi : ℕ, ∀ infM : ℚ,
      ∀ row ∈ calcular_simulacao_extra fuel tipo P taxa n estrategia fee seg te ve mi infM,
        row.parcela = row.amortizacao + row.juros + row.taxaAdm + row.seguro) := by
  refine ⟨?_, ?_, ?_⟩
  · intro P taxa n fee seg infM hr hn row hrow
    obtain ⟨j, hj, rfl⟩ := price_mem_row P taxa n fee seg infM hr hn row hrow
    rw [priceRowG]
    have : saldoPrice P (taxa / 12) (pmtPrice (taxa / 12) n P) (j + 1) =
        saldoPrice P (taxa / 12) (pmtPrice (taxa / 12) n P) j * (1 + taxa / 12) -
          pmtPrice (taxa / 12) n P := rfl
    dsimp only
    rw [this]
    ring
  · intro P taxa n fee seg infM row hrow
    obtain ⟨j, hj, rfl⟩ := sac_mem_row P taxa n fee seg infM row hrow
    rw [sacRowG]
  · intro fuel tipo P taxa n estrategia fee seg te ve mi infM
    rw [calcular_simulacao_extra]
    exact simLoop_mem_all _ (fun s => simStep_row_identity _ s) fuel _

/-- C8 (witness): the identity at a concrete valid instance. -/
theorem C8_witness :
    (0 : ℚ) ≤ 0 ∧ (1 ≤ 2) ∧
    (∀ row ∈ calcular_cronograma_price 100 0 2 1 (3 / 25) 0,
      row.parcela = row.amortizacao + row.juros + row.taxaAdm + row.seguro) :=
  ⟨le_refl 0, by norm_num,
    C8_row_identity.1 100 0 2 1 (3 / 25) 0 (le_refl 0) (by norm_num)⟩

lemma invest_pow_c3 : invAcc 10000 (taxaMensalInv (12 / 100)) 12 = 11200 := by
  rw [invAcc_pow, taxaMensalInv, if_pos (by norm_num : (0:ℝ) < 12 / 100)]
  have hx : (0:ℝ) ≤ 1 + 12 / 100 := by norm_num
  have hb : 1 + ((1 + (12:ℝ) / 100) ^ ((1:ℝ) / 12) - 1) =
      (1 + (12:ℝ) / 100) ^ ((1:ℝ) / 12) := by ring
  have hp : (((1 + (12:ℝ) / 100) ^ ((1:ℝ) / 12)) ^ (12:ℕ)) = 1 + 12 / 100 := by
    rw [← Real.rpow_natCast ((1 + (12:ℝ) / 100) ^ ((1:ℝ) / 12)) 12,
      ← Real.rpow_mul hx]
    norm_num
  rw [hb, hp]
  norm_num

/-- C3 (counterexample): with initial value 10000, annual net yield 0.12 and
12 periods — compounding at `(1.12)^(1/12) - 1` exactly as the code does —
the final accumulated value is 11200, which is not approximately 11268.25
(it is off by 68.25). -/
theorem C3_counterexample :
    (calcular_investimento 10000 (12 / 100) 12).2.getLast?.map InvRow.valorAcumulado =
      some 11200 ∧ (1:ℝ) < |(11200:ℝ) - 1126825 / 100| := by
  constructor
  · rw [calcular_investimento_eq]
    dsimp only
    rw [map_range_getLast _ 12 (by norm_num)]
    simp only [Option.map_some']
    congr 1
    rw [show (12:ℕ) - 1 + 1 = 12 from rfl]
    exact invest_pow_c3
  · rw [abs_of_nonpos (by norm_num : (11200:ℝ) - 1126825 / 100 ≤ 0)]
    norm_num

/-- C3 (amended): the concrete investment scenario yields a final accumulated
value of exactly 11200 = 10000·1.12 (total gain 1200), since twelve months of
compounding at the monthly-equivalent rate `(1.12)^(1/12) - 1` reproduce the
annual factor 1.12; the spec's figure 11268.25 corresponds to the linear
monthly rate 0.01, which the investment projector does not use. -/
theorem C3_amended :
    (calcular_investimento 10000 (12 / 100) 12).1 = 1200 ∧
    (calcular_investimento 10000 (12 / 100) 12).2.getLast?.map InvRow.valorAcumulado =
      some 11200 := by
  constructor
  · rw [calcular_investimento_eq]
    dsimp only
    rw [invest_pow_c3]
    norm_num
  · rw [calcular_investimento_eq]
    dsimp only
    rw [map_range_getLast _ 12 (by norm_num)]
    simp only [Option.map_some']
    congr 1
    rw [show (12:ℕ) - 1 + 1 = 12 from rfl]
    exact invest_pow_c3

/-- C4 (counterexample): `encontrar_pagamento_meta` with SAC, principal 120,
zero rate, original term 12 and desired term −5 returns −34 (the closed
formula difference `120/(−5) − 120/12`), not 0. -/
theorem C4_counterexample :
    encontrar_pagamento_meta Sistema.SAC 120 0 12 (-5) = some (-34) ∧
      (-34 : ℚ) ≠ 0 := by
  refine ⟨?_, by norm_num⟩
  rw [encontrar_pagamento_meta, if_neg (by norm_num)]
  dsimp only
  rw [if_neg (by norm_num)]
  norm_num

/-- C4 (amended): the solver returns 0 whenever the desired term is at least
the original term; with desired term 0 and the SAC system the Python
`ZeroDivisionError` is caught and 0 is returned.  Negative desired terms,
however, return the (negative) closed-formula difference rather than 0 (see
`C4_counterexample`), and Price with a positive rate at desired term 0
returns numpy's NaN (modelled `none`). -/
theorem C4_meta_zero :
    (∀ tipo : Sistema, ∀ P taxa : ℚ, ∀ orig desired : ℤ, orig ≤ desired →
      encontrar_pagamento_meta tipo P taxa orig desired = some 0) ∧
    (∀ P taxa : ℚ, ∀ orig : ℤ,
      encontrar_pagamento_meta Sistema.SAC P taxa orig 0 = some 0) := by
  constructor
  · intro tipo P taxa orig desired h
    rw [encontrar_pagamento_meta, if_pos h]
  · intro P taxa orig
    by_cases h : orig ≤ 0
    · rw [encontrar_pagamento_meta, if_pos h]
    · rw [encontrar_pagamento_meta, if_neg h]
      dsimp only
      rw [if_pos (Or.inr rfl)]

/-- C4 (witness): the amended theorem at concrete inputs. -/
theorem C4_witness :
    ((12:ℤ) ≤ 15 ∧ encontrar_pagamento_meta Sistema.Price 100 (1 / 10) 12 15 = some 0) ∧
      encontrar_pagamento_meta Sistema.SAC 77 (1 / 10) 9 0 = some 0 :=
  ⟨⟨by norm_num, C4_meta_zero.1 Sistema.Price 100 (1 / 10) 12 15 (by norm_num)⟩,
    C4_meta_zero.2 77 (1 / 10) 9⟩

/-- C10 (confirmed): a negative annual net yield makes `calcular_investimento`
use a monthly rate of zero, so every row records zero yield and an unchanged
accumulated value, and the returned total gain is zero. -/
theorem C10_negative_yield (v taxa : ℝ) (n : ℕ) (h : taxa < 0) :
    (calcular_investimento v taxa n).1 = 0 ∧
    ∀ row ∈ (calcular_investimento v taxa n).2,
      row.rendimento = 0 ∧ row.valorAcumulado = v := by
  have hi : taxaMensalInv taxa = 0 := by
    rw [taxaMensalInv, if_neg (not_lt.mpr h.le)]
  constructor
  · rw [calcular_investimento_eq]
    dsimp only
    rw [hi, invAcc_pow]
    norm_num
  · intro row hrow
    rw [calcular_investimento_eq] at hrow
    dsimp only at hrow
    rw [hi] at hrow
    obtain ⟨j, hj, rfl⟩ := List.mem_map.mp hrow
    constructor
    · dsimp only
      rw [mul_zero]
    · dsimp only
      rw [invAcc_pow]
      norm_num

/-- C10 (witness): the theorem at a concrete negative yield. -/
theorem C10_witness :
    (-1 : ℝ) / 2 < 0 ∧ (calcular_investimento 7 (-1 / 2) 3).1 = 0 :=
  ⟨by norm_num, (C10_negative_yield 7 (-1 / 2) 3 (by norm_num)).1⟩

/-- C6 (counterexample): with positive insurance (12% a year on the balance),
principal 300, zero rate, term 3, the Price payments are 103, 102, 101 — the
payment differs already between the first and second rows, so it is not
constant outside the last row. -/
theorem C6_counterexample :
    (calcular_cronograma_price 300 0 3 0 (3 / 25) 0).map Row.parcela =
      [103, 102, 101] ∧ (103 : ℚ) ≠ 102 := by
  refine ⟨?_, by norm_num⟩
  rw [calcular_cronograma_price_eq 300 0 3 0 (3 / 25) 0 (le_refl 0) (by norm_num)]
  norm_num [List.range_succ, priceRowG, pmtPrice, saldoPrice]

/-- C6 (amended): the Price payment is the same in every row provided the
insurance rate is zero (with positive insurance the payment varies with the
declining balance, see `C6_counterexample`); the SAC principal portion equals
`principal / term` in every row unconditionally. -/
theorem C6_constancy :
    (∀ P taxa : ℚ, ∀ n : ℕ, ∀ fee infM : ℚ, 0 ≤ taxa → 1 ≤ n →
      ∀ r1 ∈ calcular_cronograma_price P taxa n fee 0 infM,
      ∀ r2 ∈ calcular_cronograma_price P taxa n fee 0 infM,
        r1.parcela = r2.parcela) ∧
    (∀ P taxa : ℚ, ∀ n : ℕ, ∀ fee seg infM : ℚ,
      ∀ row ∈ calcular_cronograma_sac P taxa n fee seg infM,
        row.amortizacao = P / n) := by
  constructor
  · intro P taxa n fee infM hr hn r1 h1 r2 h2
    have key : ∀ r ∈ calcular_cronograma_price P taxa n fee 0 infM,
        r.parcela = pmtPrice (taxa / 12) n P + fee := by
      intro r hrow
      obtain ⟨j, hj, rfl⟩ := price_mem_row P taxa n fee 0 infM hr hn r hrow
      rw [priceRowG]
      norm_num
    rw [key r1 h1, key r2 h2]
  · intro P taxa n fee seg infM row hrow
    obtain ⟨j, hj, rfl⟩ := sac_mem_row P taxa n fee seg infM row hrow
    rw [sacRowG]

/-- C6 (witness): the amended statement at concrete instances. -/
theorem C6_witness :
    ((0 : ℚ) ≤ 0 ∧ 1 ≤ 3 ∧
      ∀ r1 ∈ calcular_cronograma_price 300 0 3 7 0 0,
      ∀ r2 ∈ calcular_cronograma_price 300 0 3 7 0 0, r1.parcela = r2.parcela) ∧
    (∀ row ∈ calcular_cronograma_sac 100 (1 / 10) 4 0 0 0,
      row.amortizacao = 100 / (4 : ℕ)) :=
  ⟨⟨le_refl 0, by norm_num, C6_constancy.1 300 0 3 7 0 (le_refl 0) (by norm_num)⟩,
    C6_constancy.2 100 (1 / 10) 4 0 0 0⟩

/-- C5 (counterexample): in the concrete scenario (principal 100000, annual
rate 10%, term 120, no fees), the SAC first payment is 5000/3 ≈ 1666.67, not
approximately 1680.56 — it misses that figure by nearly 14 currency units. -/
theorem C5_counterexample :
    (calcular_cronograma_sac 100000 (1 / 10) 120 0 0 0).head?.map Row.parcela =
      some (5000 / 3) ∧ (1 : ℚ) < |5000 / 3 - 168056 / 100| := by
  constructor
  · rw [calcular_cronograma_sac_eq, map_range_head _ 120 (by norm_num)]
    simp only [Option.map_some']
    congr 1
    rw [sacRowG, saldoSac]
    norm_num
  · rw [abs_of_nonpos (by norm_num : (5000 : ℚ) / 3 - 168056 / 100 ≤ 0)]
    norm_num

/-- C5 (amended): in the concrete scenario the Price first payment is within
one cent of 1321.51, the SAC first payment is within one cent of 1666.67,
and the SAC last payment is within one cent of 840.28. -/
theorem C5_concrete_payments :
    ((calcular_cronograma_price 100000 (1 / 10) 120 0 0 0).head?.map Row.parcela =
        some (pmtPrice (1 / 10 / 12) 120 100000) ∧
      |pmtPrice (1 / 10 / 12) 120 100000 - 132151 / 100| < 1 / 100) ∧
    ((calcular_cronograma_sac 100000 (1 / 10) 120 0 0 0).head?.map Row.parcela =
        some (5000 / 3) ∧ |(5000 : ℚ) / 3 - 166667 / 100| < 1 / 100) ∧
    ((calcular_cronograma_sac 100000 (1 / 10) 120 0 0 0).getLast?.map Row.parcela =
        some (15125 / 18) ∧ |(15125 : ℚ) / 18 - 84028 / 100| < 1 / 100) := by
  refine ⟨⟨?_, ?_⟩, ⟨?_, ?_⟩, ⟨?_, ?_⟩⟩
  · rw [calcular_cronograma_price_eq 100000 (1 / 10) 120 0 0 0 (by norm_num) (by norm_num),
      map_range_head _ 120 (by norm_num)]
    simp only [Option.map_some']
    congr 1
    rw [priceRowG]
    norm_num
  · rw [pmtPrice_pos (1 / 10 / 12) 120 100000 (by norm_num) (by norm_num)]
    have hA : (1 : ℚ) < (1 + 1 / 10 / 12) ^ 120 := one_lt_pow₀ (by norm_num) (by norm_num)
    have hA1 : (0 : ℚ) < (1 + 1 / 10 / 12) ^ 120 - 1 := by linarith
    have key1 : (100000 : ℚ) * (1 / 10 / 12) * (1 + 1 / 10 / 12) ^ 120 <
        (132151 / 100 + 1 / 100) * ((1 + 1 / 10 / 12) ^ 120 - 1) := by norm_num
    have key2 : ((132151 : ℚ) / 100 - 1 / 100) * ((1 + 1 / 10 / 12) ^ 120 - 1) <
        100000 * (1 / 10 / 12) * (1 + 1 / 10 / 12) ^ 120 := by norm_num
    rw [abs_sub_lt_iff]
    constructor
    · rw [sub_lt_iff_lt_add, div_lt_iff₀ hA1]
      linarith
    · rw [sub_lt_iff_lt_add]
      have h3 : (132151 / 100 - 1 / 100 : ℚ) <
          100000 * (1 / 10 / 12) * (1 + 1 / 10 / 12) ^ 120 / ((1 + 1 / 10 / 12) ^ 120 - 1) :=
        (lt_div_iff₀ hA1).mpr key2
      linarith
  · rw [calcular_cronograma_sac_eq, map_range_head _ 120 (by norm_num)]
    simp only [Option.map_some']
    congr 1
    rw [sacRowG, saldoSac]
    norm_num
  · rw [abs_sub_lt_iff]
    constructor <;> norm_num
  · rw [calcular_cronograma_sac_eq, map_range_getLast _ 120 (by norm_num)]
    simp only [Option.map_some']
    congr 1
    rw [sacRowG, saldoSac]
    norm_num
  · rw [abs_sub_lt_iff]
    constructor <;> norm_num

/-- C2 (counterexample): with principal 0.02, SAC, term 2 and zero extra, the
simulator stops after one row (the balance 0.01 fails the `> 0.01` loop
guard) while the plain SAC schedule has two rows, so the two schedules are
not equal row by row. -/
theorem C2_counterexample :
    calcular_simulacao_extra 10 Sistema.SAC (1 / 50) 0 2 Estrategia.parcela 0 0
        TipoExtra.unico 0 1 0 ≠ calcular_cronograma_sac (1 / 50) 0 2 0 0 0 := by
  have hsim : (calcular_simulacao_extra 10 Sistema.SAC (1 / 50) 0 2 Estrategia.parcela
      0 0 TipoExtra.unico 0 1 0).length = 1 := by
    rw [calcular_simulacao_extra_sac, show (10 : ℕ) = 9 + 1 from rfl,
      simLoop_sac_plain _ 9 _ rfl (by norm_num) (by norm_num)
        (by rintro ⟨h1, -⟩; norm_num at h1) (by norm_num)
        (by rintro ⟨h1, -⟩; norm_num at h1),
      simLoop_stop _ 9 _ (by rintro ⟨h1, -⟩; norm_num at h1)]
    rfl
  have hplain : (calcular_cronograma_sac (1 / 50) 0 2 0 0 0).length = 2 := by
    rw [calcular_cronograma_sac_eq]
    simp
  intro heq
  rw [heq, hplain] at hsim
  norm_num at hsim

/-- C2 (amended): with zero extra amount the simulator reproduces the plain
schedule exactly, provided the loan is a valid one (positive principal above
one cent, non-negative rate, positive term, enough fuel) whose plain-schedule
closing balances before the final month all exceed the 0.01 loop-guard
threshold.  Without that proviso the simulator can stop early
(see `C2_counterexample`). -/
theorem C2_zero_extra (tipo : Sistema) (P taxa : ℚ) (n : ℕ) (estrategia : Estrategia)
    (tipoExtra : TipoExtra) (mesInicio : ℕ) (fee seg infM : ℚ) (fuel : ℕ)
    (hP : 0 < P) (hr : 0 ≤ taxa) (hn : 1 ≤ n) (hf : n ≤ fuel) (hP100 : 1 / 100 < P)
    (hgt : ∀ row ∈ (match tipo with
        | Sistema.Price => calcular_cronograma_price P taxa n fee seg infM
        | Sistema.SAC => calcular_cronograma_sac P taxa n fee seg infM : List Row),
      row.mes < n → 1 / 100 < row.saldoDevedor) :
    calcular_simulacao_extra fuel tipo P taxa n estrategia fee seg tipoExtra 0 mesInicio infM =
      (match tipo with
        | Sistema.Price => calcular_cronograma_price P taxa n fee seg infM
        | Sistema.SAC => calcular_cronograma_sac P taxa n fee seg infM : List Row) := by
  cases tipo with
  | Price =>
    have hsal : ∀ m, m < n →
        1 / 100 < saldoPrice P (taxa / 12) (pmtPrice (taxa / 12) n P) m := by
      intro m hm
      rcases Nat.eq_zero_or_pos m with rfl | hm0
      · simpa [saldoPrice] using hP100
      · have hrow : priceRowG P (taxa / 12) (pmtPrice (taxa / 12) n P) fee (seg / 12)
            infM (m - 1) ∈ calcular_cronograma_price P taxa n fee seg infM := by
          rw [calcular_cronograma_price_eq P taxa n fee seg infM hr hn]
          exact List.mem_map_of_mem _ (List.mem_range.mpr (by omega))
        have hmes : (priceRowG P (taxa / 12) (pmtPrice (taxa / 12) n P) fee (seg / 12)
            infM (m - 1)).mes < n := by
          rw [priceRowG]
          dsimp only
          omega
        have h := hgt _ hrow hmes
        rw [priceRowG] at h
        dsimp only at h
        rwa [show m - 1 + 1 = m from by omega] at h
    have h := simLoop_price_zero_extra
      ⟨Sistema.Price, estrategia, tipoExtra, taxa / 12, fee, seg / 12, 0, mesInicio, infM⟩
      P n rfl rfl (by positivity) hP.le hn hsal n 0 fuel (by omega) hf
    rw [calcular_simulacao_extra_price]
    exact h
  | SAC =>
    have hsal : ∀ m, m < n → 1 / 100 < saldoSac P n m := by
      intro m hm
      rcases Nat.eq_zero_or_pos m with rfl | hm0
      · rw [saldoSac]
        push_cast
        linarith
      · have hrow : sacRowG P (taxa / 12) fee (seg / 12) infM n (m - 1) ∈
            calcular_cronograma_sac P taxa n fee seg infM := by
          rw [calcular_cronograma_sac_eq P taxa n fee seg infM]
          exact List.mem_map_of_mem _ (List.mem_range.mpr (by omega))
        have hmes : (sacRowG P (taxa / 12) fee (seg / 12) infM n (m - 1)).mes < n := by
          rw [sacRowG]
          dsimp only
          omega
        have h := hgt _ hrow hmes
        rw [sacRowG] at h
        dsimp only at h
        rw [if_neg (by omega), saldoSac_step] at h
        rwa [show m - 1 + 1 = m from by omega] at h
    have h := simLoop_sac_zero_extra
      ⟨Sistema.SAC, estrategia, tipoExtra, taxa / 12, fee, seg / 12, 0, mesInicio, infM⟩
      P n rfl rfl hP.le hn hsal n 0 fuel (by omega) hf
    have h0 : saldoSac P n 0 = P := by
      rw [saldoSac]
      push_cast
      ring
    rw [h0] at h
    rw [calcular_simulacao_extra_sac]
    exact h

/-- C2 (witness): the amended theorem applied to a concrete valid loan. -/
theorem C2_witness :
    calcular_simulacao_extra 10 Sistema.SAC 100 0 2 Estrategia.parcela 0 0
        TipoExtra.unico 0 1 0 = calcular_cronograma_sac 100 0 2 0 0 0 := by
  have hs : calcular_cronograma_sac 100 0 2 0 0 0 =
      [⟨1, 50, 0, 50, 0, 0, 50, 50⟩, ⟨2, 50, 0, 50, 0, 0, 0, 50⟩] := by
    rw [calcular_cronograma_sac_eq]
    norm_num [List.range_succ, sacRowG, saldoSac]
  have h := C2_zero_extra Sistema.SAC 100 0 2 Estrategia.parcela TipoExtra.unico 1 0 0 0
    10 (by norm_num) (le_refl 0) (by norm_num) (by norm_num) (by norm_num) ?_
  · exact h
  · intro row hrow hm
    dsimp only at hrow
    rw [hs] at hrow
    simp only [List.mem_cons, List.mem_singleton, List.not_mem_nil, or_false] at hrow
    rcases hrow with rfl | rfl
    · norm_num
    · dsimp only at hm
      omega

lemma sumAmort_cons (r : Row) (l : List Row) :
    sumAmort (r :: l) = r.amortizacao + sumAmort l := by
  rw [sumAmort, sumAmort, List.map_cons, List.sum_cons]

/-- C7 (code evaluation): SAC, principal 100, annual rate 12%, term 10, single
extra payment of 50 in month 9.  The clamp fires in month 9, and line 193
records `saldo + juros` as that month's principal portion, so the
"Amortização" column sums to 100.2 — exceeding the principal by the month's
interest 0.2, far beyond the one-cent epsilon. -/
theorem C7_sum_amortizacao :
    sumAmort (calcular_simulacao_extra 100 Sistema.SAC 100 (3 / 25) 10
        Estrategia.parcela 0 0 TipoExtra.unico 50 9 0) = 501 / 5 ∧
    (1 : ℚ) / 100 < |501 / 5 - 100| := by
  refine ⟨?_, by rw [abs_of_nonneg (by norm_num)]; norm_num⟩
  rw [calcular_simulacao_extra_sac]
  have h0 : simLoop ⟨Sistema.SAC, Estrategia.parcela, TipoExtra.unico, 3 / 25 / 12, 0,
      0 / 12, 50, 9, 0⟩ 100 ⟨100, 1, ((10 : ℕ) : ℤ), 100 / ((10 : ℕ) : ℚ)⟩ =
      simLoop ⟨Sistema.SAC, Estrategia.parcela, TipoExtra.unico, 1 / 100, 0, 0, 50, 9, 0⟩ 100 ⟨100, 1, 10, 10⟩ := by
    norm_num
  rw [h0]
  have nof : ∀ m : ℕ, m ≠ 9 →
      ¬ extraFires ⟨Sistema.SAC, Estrategia.parcela, TipoExtra.unico, 1 / 100, 0, 0, 50, 9, 0⟩ m := by
    rintro m hm ⟨-, ⟨-, h2⟩ | ⟨h2, -⟩⟩
    · exact hm h2
    · exact absurd h2 (by decide)
  have s1 : sumAmort (simLoop ⟨Sistema.SAC, Estrategia.parcela, TipoExtra.unico, 1 / 100, 0, 0, 50, 9, 0⟩ 100 ⟨100, 1, 10, 10⟩) =
      10 + sumAmort (simLoop ⟨Sistema.SAC, Estrategia.parcela, TipoExtra.unico, 1 / 100, 0, 0, 50, 9, 0⟩ 99 ⟨90, 2, 10, 10⟩) := by
    rw [show (100 : ℕ) = 99 + 1 from rfl,
      simLoop_sac_plain _ 99 _ rfl (by norm_num) (by norm_num) (nof 1 (by norm_num))
        (by norm_num) (by rintro ⟨h1, -⟩; norm_num at h1),
      sumAmort_cons]
    norm_num
  have s2 : sumAmort (simLoop ⟨Sistema.SAC, Estrategia.parcela, TipoExtra.unico, 1 / 100, 0, 0, 50, 9, 0⟩ 99 ⟨90, 2, 10, 10⟩) =
      10 + sumAmort (simLoop ⟨Sistema.SAC, Estrategia.parcela, TipoExtra.unico, 1 / 100, 0, 0, 50, 9, 0⟩ 98 ⟨80, 3, 10, 10⟩) := by
    rw [show (99 : ℕ) = 98 + 1 from rfl,
      simLoop_sac_plain _ 98 _ rfl (by norm_num) (by norm_num) (nof 2 (by norm_num))
        (by norm_num) (by rintro ⟨h1, -⟩; norm_num at h1),
      sumAmort_cons]
    norm_num
  have s3 : sumAmort (simLoop ⟨Sistema.SAC, Estrategia.parcela, TipoExtra.unico, 1 / 100, 0, 0, 50, 9, 0⟩ 98 ⟨80, 3, 10, 10⟩) =
      10 + sumAmort (simLoop ⟨Sistema.SAC, Estrategia.parcela, TipoExtra.unico, 1 / 100, 0, 0, 50, 9, 0⟩ 97 ⟨70, 4, 10, 10⟩) := by
    rw [show (98 : ℕ) = 97 + 1 from rfl,
      simLoop_sac_plain _ 97 _ rfl (by norm_num) (by norm_num) (nof 3 (by norm_num))
        (by norm_num) (by rintro ⟨h1, -⟩; norm_num at h1),
      sumAmort_cons]
    norm_num
  have s4 : sumAmort (simLoop ⟨Sistema.SAC, Estrategia.parcela, TipoExtra.unico, 1 / 100, 0, 0, 50, 9, 0⟩ 97 ⟨70, 4, 10, 10⟩) =
      10 + sumAmort (simLoop ⟨Sistema.SAC, Estrategia.parcela, TipoExtra.unico, 1 / 100, 0, 0, 50, 9, 0⟩ 96 ⟨60, 5, 10, 10⟩) := by
    rw [show (97 : ℕ) = 96 + 1 from rfl,
      simLoop_sac_plain _ 96 _ rfl (by norm_num) (by norm_num) (nof 4 (by norm_num))
        (by norm_num) (by rintro ⟨h1, -⟩; norm_num at h1),
      sumAmort_cons]
    norm_num
  have s5 : sumAmort (simLoop ⟨Sistema.SAC, Estrategia.parcela, TipoExtra.unico, 1 / 100, 0, 0, 50, 9, 0⟩ 96 ⟨60, 5, 10, 10⟩) =
      10 + sumAmort (simLoop ⟨Sistema.SAC, Estrategia.parcela, TipoExtra.unico, 1 / 100, 0, 0, 50, 9, 0⟩ 95 ⟨50, 6, 10, 10⟩) := by
    rw [show (96 : ℕ) = 95 + 1 from rfl,
      simLoop_sac_plain _ 95 _ rfl (by norm_num) (by norm_num) (nof 5 (by norm_num))
        (by norm_num) (by rintro ⟨h1, -⟩; norm_num at h1),
      sumAmort_cons]
    norm_num
  have s6 : sumAmort (simLoop ⟨Sistema.SAC, Estrategia.parcela, TipoExtra.unico, 1 / 100, 0, 0, 50, 9, 0⟩ 95 ⟨50, 6, 10, 10⟩) =
      10 + sumAmort (simLoop ⟨Sistema.SAC, Estrategia.parcela, TipoExtra.unico, 1 / 100, 0, 0, 50, 9, 0⟩ 94 ⟨40, 7, 10, 10⟩) := by
    rw [show (95 : ℕ) = 94 + 1 from rfl,
      simLoop_sac_plain _ 94 _ rfl (by norm_num) (by norm_num) (nof 6 (by norm_num))
        (by norm_num) (by rintro ⟨h1, -⟩; norm_num at h1),
      sumAmort_cons]
    norm_num
  have s7 : sumAmort (simLoop ⟨Sistema.SAC, Estrategia.parcela, TipoExtra.unico, 1 / 100, 0, 0, 50, 9, 0⟩ 94 ⟨40, 7, 10, 10⟩) =
      10 + sumAmort (simLoop ⟨Sistema.SAC, Estrategia.parcela, TipoExtra.unico, 1 / 100, 0, 0, 50, 9, 0⟩ 93 ⟨30, 8, 10, 10⟩) := by
    rw [show (94 : ℕ) = 93 + 1 from rfl,
      simLoop_sac_plain _ 93 _ rfl (by norm_num) (by norm_num) (nof 7 (by norm_num))
        (by norm_num) (by rintro ⟨h1, -⟩; norm_num at h1),
      sumAmort_cons]
    norm_num
  have s8 : sumAmort (simLoop ⟨Sistema.SAC, Estrategia.parcela, TipoExtra.unico, 1 / 100, 0, 0, 50, 9, 0⟩ 93 ⟨30, 8, 10, 10⟩) =
      10 + sumAmort (simLoop ⟨Sistema.SAC, Estrategia.parcela, TipoExtra.unico, 1 / 100, 0, 0, 50, 9, 0⟩ 92 ⟨20, 9, 10, 10⟩) := by
    rw [show (93 : ℕ) = 92 + 1 from rfl,
      simLoop_sac_plain _ 92 _ rfl (by norm_num) (by norm_num) (nof 8 (by norm_num))
        (by norm_num) (by rintro ⟨h1, -⟩; norm_num at h1),
      sumAmort_cons]
    norm_num
  have s9 : sumAmort (simLoop ⟨Sistema.SAC, Estrategia.parcela, TipoExtra.unico, 1 / 100, 0, 0, 50, 9, 0⟩ 92 ⟨20, 9, 10, 10⟩) =
      101 / 5 + sumAmort (simLoop ⟨Sistema.SAC, Estrategia.parcela, TipoExtra.unico, 1 / 100, 0, 0, 50, 9, 0⟩ 91 ⟨0, 10, 10, 10⟩) := by
    rw [show (92 : ℕ) = 91 + 1 from rfl,
      simLoop_sac_clamp _ 91 _ rfl (by norm_num) (by norm_num)
        ⟨by norm_num, Or.inl ⟨rfl, rfl⟩⟩ (by norm_num),
      sumAmort_cons]
    norm_num
  have s10 : sumAmort (simLoop ⟨Sistema.SAC, Estrategia.parcela, TipoExtra.unico, 1 / 100, 0, 0, 50, 9, 0⟩ 91 ⟨0, 10, 10, 10⟩) = 0 := by
    rw [simLoop_stop _ 91 _ (by rintro ⟨h1, -⟩; norm_num at h1)]
    rfl
  rw [s1, s2, s3, s4, s5, s6, s7, s8, s9, s10]
  norm_num

lemma pyInt_round (q : ℚ) (hq : 0 ≤ q) :
    pyInt (q + 99 / 100) = ⌈q⌉ ↔ ¬ (0 < Int.fract q ∧ Int.fract q < 1 / 100) := by
  have h0 : (0 : ℚ) ≤ q + 99 / 100 := by linarith
  have hsplit : ⌊q + 99 / 100⌋ = ⌊q⌋ + ⌊Int.fract q + 99 / 100⌋ := by
    conv_lhs => rw [← Int.floor_add_fract q, add_assoc]
    rw [Int.floor_int_add]
  rw [pyInt, if_pos h0, hsplit]
  have hf0 := Int.fract_nonneg q
  have hf1 := Int.fract_lt_one q
  have hq1 := Int.floor_add_fract q
  rcases lt_or_le (Int.fract q) (1 / 100) with hlt | hge
  · rcases eq_or_lt_of_le hf0 with hz | hpos
    · have hfr : ⌊Int.fract q + 99 / 100⌋ = 0 := by
        rw [Int.floor_eq_iff]
        constructor <;> push_cast <;> linarith
      have hceil : ⌈q⌉ = ⌊q⌋ := by
        rw [Int.ceil_eq_iff]
        constructor <;> push_cast <;> linarith
      rw [hfr, hceil, add_zero]
      exact iff_of_true rfl (by rintro ⟨h1, -⟩; rw [← hz] at h1; exact lt_irrefl 0 h1)
    · have hfr : ⌊Int.fract q + 99 / 100⌋ = 0 := by
        rw [Int.floor_eq_iff]
        constructor <;> push_cast <;> linarith
      have hceil : ⌈q⌉ = ⌊q⌋ + 1 := by
        rw [Int.ceil_eq_iff]
        constructor <;> push_cast <;> linarith
      rw [hfr, hceil, add_zero]
      exact iff_of_false (by omega) (fun h => h ⟨hpos, hlt⟩)
  · have hfr : ⌊Int.fract q + 99 / 100⌋ = 1 := by
      rw [Int.floor_eq_iff]
      constructor <;> push_cast <;> linarith
    have hceil : ⌈q⌉ = ⌊q⌋ + 1 := by
      rw [Int.ceil_eq_iff]
      constructor <;> push_cast <;> linarith
    rw [hfr, hceil]
    exact iff_of_true rfl (by rintro ⟨-, h2⟩; linarith)

/-- The same rounding characterization for the real-valued truncation
`pyIntR`, used by the Price branch at a positive rate. -/
lemma pyIntR_round (x : ℝ) (hx : 0 ≤ x) :
    pyIntR (x + 99 / 100) = ⌈x⌉ ↔ ¬ (0 < Int.fract x ∧ Int.fract x < 1 / 100) := by
  have h0 : (0 : ℝ) ≤ x + 99 / 100 := by linarith
  have hsplit : ⌊x + 99 / 100⌋ = ⌊x⌋ + ⌊Int.fract x + 99 / 100⌋ := by
    conv_lhs => rw [← Int.floor_add_fract x, add_assoc]
    rw [Int.floor_int_add]
  rw [pyIntR, if_pos h0, hsplit]
  have hf0 := Int.fract_nonneg x
  have hf1 := Int.fract_lt_one x
  have hq1 := Int.floor_add_fract x
  rcases lt_or_le (Int.fract x) (1 / 100) with hlt | hge
  · rcases eq_or_lt_of_le hf0 with hz | hpos
    · have hfr : ⌊Int.fract x + 99 / 100⌋ = 0 := by
        rw [Int.floor_eq_iff]
        constructor <;> push_cast <;> linarith
      have hceil : ⌈x⌉ = ⌊x⌋ := by
        rw [Int.ceil_eq_iff]
        constructor <;> push_cast <;> linarith
      rw [hfr, hceil, add_zero]
      exact iff_of_true rfl (by rintro ⟨h1, -⟩; rw [← hz] at h1; exact lt_irrefl 0 h1)
    · have hfr : ⌊Int.fract x + 99 / 100⌋ = 0 := by
        rw [Int.floor_eq_iff]
        constructor <;> push_cast <;> linarith
      have hceil : ⌈x⌉ = ⌊x⌋ + 1 := by
        rw [Int.ceil_eq_iff]
        constructor <;> push_cast <;> linarith
      rw [hfr, hceil, add_zero]
      exact iff_of_false (by omega) (fun h => h ⟨hpos, hlt⟩)
  · have hfr : ⌊Int.fract x + 99 / 100⌋ = 1 := by
      rw [Int.floor_eq_iff]
      constructor <;> push_cast <;> linarith
    have hceil : ⌈x⌉ = ⌊x⌋ + 1 := by
      rw [Int.ceil_eq_iff]
      constructor <;> push_cast <;> linarith
    rw [hfr, hceil]
    exact iff_of_true rfl (by rintro ⟨-, h2⟩; linarith)

lemma simStep_sac_prazo (p : SimParams) (s : SimState)
    (htipo : p.tipo = Sistema.SAC) (hestr : p.estrategia = Estrategia.prazo)
    (hfire : extraFires p s.mes)
    (hnc : s.base + p.valorExtra ≤ s.saldo)
    (hmes : (s.mes : ℤ) ≠ s.prazoTotal)
    (hex : 0 < p.valorExtra)
    (hbig : 1 / 100 < s.saldo - (s.base + p.valorExtra)) :
    (simStep p s).1.base = s.base ∧
    (simStep p s).1.prazoTotal =
      (s.mes : ℤ) + pyInt ((s.saldo - (s.base + p.valorExtra)) / s.base + 99 / 100) := by
  have hSP : ¬ (Sistema.SAC = Sistema.Price) := by decide
  have hPP : ¬ (Estrategia.prazo = Estrategia.parcela) := by decide
  have hclamp : ¬ (s.saldo < s.base + p.valorExtra) := not_lt.mpr hnc
  simp only [simStep, htipo, hestr, if_pos hfire, hSP, hPP, hclamp, hmes, hbig, hex,
    false_and, and_false, true_and, and_true, if_false, ite_false, if_true, ite_true]

/-- The Price analogue of `simStep_sac_prazo`: shorten-term recompute after a
non-clamped prepayment keeps the base payment and sets the new total term to
`mes + int(novo_prazo_restante + 0.99)`, where the fractional remaining term
is `npf.nper` at a positive rate and `saldo / base` at rate zero
(lines 230-236). -/
lemma simStep_price_prazo (p : SimParams) (s : SimState)
    (htipo : p.tipo = Sistema.Price) (hestr : p.estrategia = Estrategia.prazo)
    (hfire : extraFires p s.mes)
    (hnc : s.base - s.saldo * p.r + p.valorExtra ≤ s.saldo)
    (hmes : (s.mes : ℤ) ≠ s.prazoTotal)
    (hex : 0 < p.valorExtra)
    (hbig : 1 / 100 < s.saldo - (s.base - s.saldo * p.r + p.valorExtra)) :
    (simStep p s).1.base = s.base ∧
    (simStep p s).1.prazoTotal = (s.mes : ℤ) +
      (if 0 < p.r then
        pyIntR (nperR p.r s.base
          (s.saldo - (s.base - s.saldo * p.r + p.valorExtra)) + 99 / 100)
       else
        pyInt ((s.saldo - (s.base - s.saldo * p.r + p.valorExtra)) / s.base
          + 99 / 100)) := by
  have hPP : ¬ (Estrategia.prazo = Estrategia.parcela) := by decide
  have hclamp : ¬ (s.saldo < s.base - s.saldo * p.r + p.valorExtra) := not_lt.mpr hnc
  simp only [simStep, htipo, hestr, if_pos hfire, hPP, hclamp, hmes, hbig, hex,
    false_and, and_false, true_and, and_true, if_false, ite_false, if_true, ite_true,
    eq_self_iff_true]

/-- C9 (counterexample): SAC, principal 100, zero rate, term 10, shorten-term
strategy, extra 9.95 in month 1.  The fractional remaining term after the
prepayment is 8.005, whose round-up is 9, so the claim predicts a new
effective term of 1 + 9 = 10; the code computes `int(8.005 + 0.99) = 8` and
simulates only 9 months. -/
theorem C9_counterexample :
    (calcular_simulacao_extra 100 Sistema.SAC 100 0 10 Estrategia.prazo 0 0
        TipoExtra.unico (199 / 20) 1 0).length = 9 ∧
    (1 : ℤ) + ⌈((100 : ℚ) - (100 / ((10 : ℕ) : ℚ) + 199 / 20)) / (100 / ((10 : ℕ) : ℚ))⌉ = 10 := by
  constructor
  · rw [calcular_simulacao_extra_sac]
    have h0 : simLoop ⟨Sistema.SAC, Estrategia.prazo, TipoExtra.unico, 0 / 12, 0,
        0 / 12, 199 / 20, 1, 0⟩ 100 ⟨100, 1, ((10 : ℕ) : ℤ), 100 / ((10 : ℕ) : ℚ)⟩ =
        simLoop ⟨Sistema.SAC, Estrategia.prazo, TipoExtra.unico, 0, 0, 0, 199 / 20, 1, 0⟩ 100 ⟨100, 1, 10, 10⟩ := by
      norm_num
    rw [h0]
    have nof : ∀ m : ℕ, m ≠ 1 →
        ¬ extraFires ⟨Sistema.SAC, Estrategia.prazo, TipoExtra.unico, 0, 0, 0, 199 / 20, 1, 0⟩ m := by
      rintro m hm ⟨-, ⟨-, h2⟩ | ⟨h2, -⟩⟩
      · exact hm h2
      · exact absurd h2 (by decide)
    have t1 : (simLoop ⟨Sistema.SAC, Estrategia.prazo, TipoExtra.unico, 0, 0, 0, 199 / 20, 1, 0⟩ 100 ⟨100, 1, 10, 10⟩).length =
        (simLoop ⟨Sistema.SAC, Estrategia.prazo, TipoExtra.unico, 0, 0, 0, 199 / 20, 1, 0⟩ 99 ⟨1601 / 20, 2, 9, 10⟩).length + 1 := by
      rw [show (100 : ℕ) = 99 + 1 from rfl,
        simLoop_sac_extra_prazo _ 99 _ rfl rfl (by norm_num) (by norm_num)
          ⟨by norm_num, Or.inl ⟨rfl, rfl⟩⟩ (by norm_num) (by norm_num) (by norm_num)
          (by norm_num),
        List.length_cons]
      norm_num [pyInt]
    have t2 : (simLoop ⟨Sistema.SAC, Estrategia.prazo, TipoExtra.unico, 0, 0, 0, 199 / 20, 1, 0⟩ 99 ⟨1601 / 20, 2, 9, 10⟩).length =
        (simLoop ⟨Sistema.SAC, Estrategia.prazo, TipoExtra.unico, 0, 0, 0, 199 / 20, 1, 0⟩ 98 ⟨1401 / 20, 3, 9, 10⟩).length + 1 := by
      rw [show (99 : ℕ) = 98 + 1 from rfl,
        simLoop_sac_plain _ 98 _ rfl (by norm_num) (by norm_num) (nof 2 (by norm_num))
          (by norm_num) (by rintro ⟨h1, -⟩; norm_num at h1),
        List.length_cons]
      norm_num
    have t3 : (simLoop ⟨Sistema.SAC, Estrategia.prazo, TipoExtra.unico, 0, 0, 0, 199 / 20, 1, 0⟩ 98 ⟨1401 / 20, 3, 9, 10⟩).length =
        (simLoop ⟨Sistema.SAC, Estrategia.prazo, TipoExtra.unico, 0, 0, 0, 199 / 20, 1, 0⟩ 97 ⟨1201 / 20, 4, 9, 10⟩).length + 1 := by
      rw [show (98 : ℕ) = 97 + 1 from rfl,
        simLoop_sac_plain _ 97 _ rfl (by norm_num) (by norm_num) (nof 3 (by norm_num))
          (by norm_num) (by rintro ⟨h1, -⟩; norm_num at h1),
        List.length_cons]
      norm_num
    have t4 : (simLoop ⟨Sistema.SAC, Estrategia.prazo, TipoExtra.unico, 0, 0, 0, 199 / 20, 1, 0⟩ 97 ⟨1201 / 20, 4, 9, 10⟩).length =
        (simLoop ⟨Sistema.SAC, Estrategia.prazo, TipoExtra.unico, 0, 0, 0, 199 / 20, 1, 0⟩ 96 ⟨1001 / 20, 5, 9, 10⟩).length + 1 := by
      rw [show (97 : ℕ) = 96 + 1 from rfl,
        simLoop_sac_plain _ 96 _ rfl (by norm_num) (by norm_num) (nof 4 (by norm_num))
          (by norm_num) (by rintro ⟨h1, -⟩; norm_num at h1),
        List.length_cons]
      norm_num
    have t5 : (simLoop ⟨Sistema.SAC, Estrategia.prazo, TipoExtra.unico, 0, 0, 0, 199 / 20, 1, 0⟩ 96 ⟨1001 / 20, 5, 9, 10⟩).length =
        (simLoop ⟨Sistema.SAC, Estrategia.prazo, TipoExtra.unico, 0, 0, 0, 199 / 20, 1, 0⟩ 95 ⟨801 / 20, 6, 9, 10⟩).length + 1 := by
      rw [show (96 : ℕ) = 95 + 1 from rfl,
        simLoop_sac_plain _ 95 _ rfl (by norm_num) (by norm_num) (nof 5 (by norm_num))
          (by norm_num) (by rintro ⟨h1, -⟩; norm_num at h1),
        List.length_cons]
      norm_num
    have t6 : (simLoop ⟨Sistema.SAC, Estrategia.prazo, TipoExtra.unico, 0, 0, 0, 199 / 20, 1, 0⟩ 95 ⟨801 / 20, 6, 9, 10⟩).length =
        (simLoop ⟨Sistema.SAC, Estrategia.prazo, TipoExtra.unico, 0, 0, 0, 199 / 20, 1, 0⟩ 94 ⟨601 / 20, 7, 9, 10⟩).length + 1 := by
      rw [show (95 : ℕ) = 94 + 1 from rfl,
        simLoop_sac_plain _ 94 _ rfl (by norm_num) (by norm_num) (nof 6 (by norm_num))
          (by norm_num) (by rintro ⟨h1, -⟩; norm_num at h1),
        List.length_cons]
      norm_num
    have t7 : (simLoop ⟨Sistema.SAC, Estrategia.prazo, TipoExtra.unico, 0, 0, 0, 199 / 20, 1, 0⟩ 94 ⟨601 / 20, 7, 9, 10⟩).length =
        (simLoop ⟨Sistema.SAC, Estrategia.prazo, TipoExtra.unico, 0, 0, 0, 199 / 20, 1, 0⟩ 93 ⟨401 / 20, 8, 9, 10⟩).length + 1 := by
      rw [show (94 : ℕ) = 93 + 1 from rfl,
        simLoop_sac_plain _ 93 _ rfl (by norm_num) (by norm_num) (nof 7 (by norm_num))
          (by norm_num) (by rintro ⟨h1, -⟩; norm_num at h1),
        List.length_cons]
      norm_num
    have t8 : (simLoop ⟨Sistema.SAC, Estrategia.prazo, TipoExtra.unico, 0, 0, 0, 199 / 20, 1, 0⟩ 93 ⟨401 / 20, 8, 9, 10⟩).length =
        (simLoop ⟨Sistema.SAC, Estrategia.prazo, TipoExtra.unico, 0, 0, 0, 199 / 20, 1, 0⟩ 92 ⟨201 / 20, 9, 9, 10⟩).length + 1 := by
      rw [show (93 : ℕ) = 92 + 1 from rfl,
        simLoop_sac_plain _ 92 _ rfl (by norm_num) (by norm_num) (nof 8 (by norm_num))
          (by norm_num) (by rintro ⟨h1, -⟩; norm_num at h1),
        List.length_cons]
      norm_num
    have t9 : (simLoop ⟨Sistema.SAC, Estrategia.prazo, TipoExtra.unico, 0, 0, 0, 199 / 20, 1, 0⟩ 92 ⟨201 / 20, 9, 9, 10⟩).length =
        (simLoop ⟨Sistema.SAC, Estrategia.prazo, TipoExtra.unico, 0, 0, 0, 199 / 20, 1, 0⟩ 91 ⟨0, 10, 9, 10⟩).length + 1 := by
      rw [show (92 : ℕ) = 91 + 1 from rfl,
        simLoop_sac_plain_residual _ 91 _ rfl (by norm_num) (nof 9 (by norm_num))
          (by norm_num) (by norm_num) (by norm_num),
        List.length_cons]
    have t10 : (simLoop ⟨Sistema.SAC, Estrategia.prazo, TipoExtra.unico, 0, 0, 0, 199 / 20, 1, 0⟩ 91 ⟨0, 10, 9, 10⟩).length = 0 := by
      rw [simLoop_stop _ 91 _ (by rintro ⟨h1, -⟩; norm_num at h1)]
      rfl
    rw [t1, t2, t3, t4, t5, t6, t7, t8, t9, t10]
  · have hc : ⌈((100 : ℚ) - (100 / ((10 : ℕ) : ℚ) + 199 / 20)) /
        (100 / ((10 : ℕ) : ℚ))⌉ = 9 := by
      rw [Int.ceil_eq_iff]
      constructor <;> push_cast <;> norm_num
    rw [hc]
    norm_num

/-- C9 (amended): under the shorten-term strategy, when a prepayment fires and
more than one cent of balance remains, the base parameter is kept unchanged
for both systems (base principal portion for SAC, base payment for Price) and
the new effective term is the current month plus
`int(novo_prazo_restante + 0.99)` (here `pyInt`/`pyIntR`): truncation after
adding 0.99.  The fractional remaining term is the balance divided by the base
for SAC, and for Price the annuity inverse `npf.nper` at a positive rate (the
balance divided by the base payment at rate zero).  The truncation equals the
claimed rounding-up exactly when the fractional part of the remaining-term
solution is not in the open interval (0, 0.01); inside it the code rounds
*down* (see `C9_counterexample`) — characterized for both the rational and the
real-valued truncation. -/
theorem C9_shorten_term :
    (∀ p : SimParams, ∀ s : SimState, p.tipo = Sistema.SAC →
      p.estrategia = Estrategia.prazo → extraFires p s.mes →
      s.base + p.valorExtra ≤ s.saldo → (s.mes : ℤ) ≠ s.prazoTotal →
      0 < p.valorExtra → 1 / 100 < s.saldo - (s.base + p.valorExtra) →
      (simStep p s).1.base = s.base ∧
      (simStep p s).1.prazoTotal =
        (s.mes : ℤ) + pyInt ((s.saldo - (s.base + p.valorExtra)) / s.base + 99 / 100)) ∧
    (∀ p : SimParams, ∀ s : SimState, p.tipo = Sistema.Price →
      p.estrategia = Estrategia.prazo → extraFires p s.mes →
      s.base - s.saldo * p.r + p.valorExtra ≤ s.saldo → (s.mes : ℤ) ≠ s.prazoTotal →
      0 < p.valorExtra → 1 / 100 < s.saldo - (s.base - s.saldo * p.r + p.valorExtra) →
      (simStep p s).1.base = s.base ∧
      (simStep p s).1.prazoTotal = (s.mes : ℤ) +
        (if 0 < p.r then
          pyIntR (nperR p.r s.base
            (s.saldo - (s.base - s.saldo * p.r + p.valorExtra)) + 99 / 100)
         else
          pyInt ((s.saldo - (s.base - s.saldo * p.r + p.valorExtra)) / s.base
            + 99 / 100))) ∧
    (∀ q : ℚ, 0 ≤ q →
      (pyInt (q + 99 / 100) = ⌈q⌉ ↔ ¬ (0 < Int.fract q ∧ Int.fract q < 1 / 100))) ∧
    (∀ x : ℝ, 0 ≤ x →
      (pyIntR (x + 99 / 100) = ⌈x⌉ ↔ ¬ (0 < Int.fract x ∧ Int.fract x < 1 / 100))) :=
  ⟨fun p s htipo hestr hfire hnc hmes hex hbig =>
    simStep_sac_prazo p s htipo hestr hfire hnc hmes hex hbig,
   fun p s htipo hestr hfire hnc hmes hex hbig =>
    simStep_price_prazo p s htipo hestr hfire hnc hmes hex hbig,
   fun q hq => pyInt_round q hq,
   fun x hx => pyIntR_round x hx⟩

/-- C9 (witness): the amended theorem at the counterexample's SAC state, at a
concrete Price state with positive rate, and at the remaining-term value 8.01
(whose fractional part is not in (0, 0.01)), in both ℚ and ℝ. -/
theorem C9_witness :
    ((simStep ⟨Sistema.SAC, Estrategia.prazo, TipoExtra.unico, 0, 0, 0, 199 / 20, 1, 0⟩
        ⟨100, 1, 10, 10⟩).1.base = 10 ∧
      (simStep ⟨Sistema.SAC, Estrategia.prazo, TipoExtra.unico, 0, 0, 0, 199 / 20, 1, 0⟩
        ⟨100, 1, 10, 10⟩).1.prazoTotal =
          ((1 : ℕ) : ℤ) + pyInt ((100 - (10 + 199 / 20)) / 10 + 99 / 100)) ∧
    ((simStep ⟨Sistema.Price, Estrategia.prazo, TipoExtra.unico, 1 / 100, 0, 0, 50, 1, 0⟩
        ⟨1000, 1, 100, 20⟩).1.base = 20 ∧
      (simStep ⟨Sistema.Price, Estrategia.prazo, TipoExtra.unico, 1 / 100, 0, 0, 50, 1, 0⟩
        ⟨1000, 1, 100, 20⟩).1.prazoTotal = ((1 : ℕ) : ℤ) +
        (if 0 < (1 / 100 : ℚ) then
          pyIntR (nperR (1 / 100) 20 (1000 - (20 - 1000 * (1 / 100) + 50)) + 99 / 100)
         else
          pyInt ((1000 - (20 - 1000 * (1 / 100) + 50)) / 20 + 99 / 100))) ∧
    (pyInt ((801 / 100 : ℚ) + 99 / 100) = ⌈(801 / 100 : ℚ)⌉ ↔
      ¬ (0 < Int.fract (801 / 100 : ℚ) ∧ Int.fract (801 / 100 : ℚ) < 1 / 100)) ∧
    (pyIntR ((801 / 100 : ℝ) + 99 / 100) = ⌈(801 / 100 : ℝ)⌉ ↔
      ¬ (0 < Int.fract (801 / 100 : ℝ) ∧ Int.fract (801 / 100 : ℝ) < 1 / 100)) :=
  ⟨C9_shorten_term.1 ⟨Sistema.SAC, Estrategia.prazo, TipoExtra.unico, 0, 0, 0, 199 / 20, 1, 0⟩
      ⟨100, 1, 10, 10⟩ rfl rfl ⟨by norm_num, Or.inl ⟨rfl, rfl⟩⟩ (by norm_num)
      (by norm_num) (by norm_num) (by norm_num),
    C9_shorten_term.2.1
      ⟨Sistema.Price, Estrategia.prazo, TipoExtra.unico, 1 / 100, 0, 0, 50, 1, 0⟩
      ⟨1000, 1, 100, 20⟩ rfl rfl ⟨by norm_num, Or.inl ⟨rfl, rfl⟩⟩ (by norm_num)
      (by norm_num) (by norm_num) (by norm_num),
    C9_shorten_term.2.2.1 (801 / 100) (by norm_num),
    C9_shorten_term.2.2.2 (801 / 100) (by norm_num)⟩
